import Mathlib

/-!
# OpenXcom base view: grid model, placement validator and pointer mapper

A shallow embedding of `BaseView.cpp`, with the slot lookup of
`RuleInventory.cpp` and the save and load of `RuleCraftWeapon.cpp`.  Each
definition follows the C++ function of the same name.

Modelling conventions.

* `int` values are unbounded integers; the quantities involved (grid indices,
  facility sizes, pixel coordinates) are far from the 32-bit range.
* A `BaseFacility*` is modelled by the facility record it points to and the null
  pointer by `none`.  Nothing in `BaseView` writes to a facility.
* `BASE_SIZE` is declared in `BaseView.h`; it is a parameter of every
  function that uses it.
* The member `_facilities[BASE_SIZE][BASE_SIZE]` is modelled as a map on all
  pairs of integer indices.  Its values at pairs with both indices in
  `[0, BASE_SIZE)` are the array; its value at any other pair stands for whatever
  the expression `_facilities[x][y]` finds in memory at that index, about
  which nothing is assumed.
-/

namespace OpenXcom

/-! ## Data model -/

/-- Pixel side length of one grid square: the macro `GRID_SIZE`. -/
def GRID_SIZE : Int := 32

/-- The accessors of `RuleBaseFacility` used by the view: `getSize`,
`getSpriteShape`, `getSpriteFacility` and `getCrafts`. -/
structure RuleBaseFacility where
  size : Int
  spriteShape : Int
  spriteFacility : Int
  crafts : Int
deriving DecidableEq

/-- The accessors of `BaseFacility` used by the view: `getRules`, `getX`,
`getY` and `getBuildTime`. -/
structure BaseFacility where
  rules : RuleBaseFacility
  x : Int
  y : Int
  buildTime : Int
deriving DecidableEq

/-- The accessor of `RuleCraft` used by the view: `getSprite`. -/
structure RuleCraft where
  sprite : Int
deriving DecidableEq

/-- The accessor of `Craft` used by the view: `getRules`. -/
structure Craft where
  rules : RuleCraft
deriving DecidableEq

/-- The accessors of `Base` used by the view: `getFacilities` and
`getCrafts`. -/
structure Base where
  facilities : List BaseFacility
  crafts : List Craft
deriving DecidableEq

/-- The contents of `_facilities`, indexed as `_facilities[x][y]`. -/
abbrev Grid := Int → Int → Option BaseFacility

/-- The assignment `_facilities[x][y] = v`. -/
def Grid.set (g : Grid) (x y : Int) (v : Option BaseFacility) : Grid :=
  fun a b => if a = x ∧ b = y then v else g a b

/-- The values taken by `k` in `for (int k = a; k < b; k++)`, in order. -/
def forRange (a b : Int) : List Int :=
  (List.range (b - a).toNat).map (fun (k : Nat) => a + (k : Int))

/-- The test `_facilities[x][y] != 0 && _facilities[x][y]->getBuildTime() == 0`. -/
def operationalAt (g : Grid) (x y : Int) : Bool :=
  match g x y with
  | some f => f.buildTime == 0
  | none => false

/-- The selector surface: size, position, visibility and what is painted on
it, the bordered rectangle (`bordered = true`) or the flat fill. -/
structure Selector where
  width : Int
  height : Int
  x : Int
  y : Int
  visible : Bool
  bordered : Bool
deriving DecidableEq

/-- The pointer `_selector`: null, pointing to a live surface, or left
pointing to a surface that has been deleted. -/
inductive SelectorPtr where
  | null : SelectorPtr
  | live : Selector → SelectorPtr
  | deleted : SelectorPtr
deriving DecidableEq

/-- The call `_selector->setVisible(b)`. -/
def SelectorPtr.setVisible (p : SelectorPtr) (b : Bool) : SelectorPtr :=
  match p with
  | .live s => .live { s with visible := b }
  | q => q

/-- The calls `_selector->setX(x); _selector->setY(y)`. -/
def SelectorPtr.setXY (p : SelectorPtr) (x y : Int) : SelectorPtr :=
  match p with
  | .live s => .live { s with x := x, y := y }
  | q => q

/-- Whether the selector overlay is showing. -/
def SelectorPtr.isVisible (p : SelectorPtr) : Bool :=
  match p with
  | .live s => s.visible
  | _ => false

/-- The screen position of the selector surface, when there is one. -/
def SelectorPtr.position (p : SelectorPtr) : Option (Int × Int) :=
  match p with
  | .live s => some (s.x, s.y)
  | _ => none

/-- The two `SDL_FillRect` sequences of `setSelectable` and `blink` on the
selector surface: the bordered rectangle (`b = true`) or the flat fill. -/
def SelectorPtr.paint (p : SelectorPtr) (b : Bool) : SelectorPtr :=
  match p with
  | .live s => .live { s with bordered := b }
  | q => q

/-- The statement `delete _selector`, which leaves the pointer value as it
is: a null pointer stays null, any other pointer dangles. -/
def SelectorPtr.delete (p : SelectorPtr) : SelectorPtr :=
  match p with
  | .null => .null
  | _ => .deleted

/-- Modelled from the spec: the class `Timer`, which `BaseView` creates with
a period of 100 and to which `think` delegates, has no source here.  Following
the specification it is a logical countdown over a fixed period, advanced by
explicit ticks that carry the elapsed time. -/
structure Timer where
  interval : Nat
  remaining : Nat
deriving DecidableEq

/-- Modelled from the spec: the constructor `Timer(interval)` followed by
`start()`: a full period remains. -/
def Timer.start (interval : Nat) : Timer :=
  { interval := interval, remaining := interval }

/-- Modelled from the spec: one tick of `Timer::think` with `elapsed` time
units gone by since the previous tick.  When the period has run out the
callback fires (second component true) and the countdown restarts; otherwise
the countdown advances and nothing fires. -/
def Timer.tick (t : Timer) (elapsed : Nat) : Timer × Bool :=
  if t.remaining ≤ elapsed then ({ t with remaining := t.interval }, true)
  else ({ t with remaining := t.remaining - elapsed }, false)

/-- The members of `BaseView` (with the position `_x`, `_y` inherited from
`Surface`) that the grid, validator and pointer code read or write. -/
structure BaseView where
  x : Int
  y : Int
  base : Option Base
  facilities : Grid
  selFacility : Option BaseFacility
  gridX : Int
  gridY : Int
  selSize : Int
  selector : SelectorPtr
  blink : Bool
  timer : Timer

/-- The fields `button.x` and `button.y` of an `SDL_Event`, which are
unsigned. -/
structure MouseEvent where
  x : Nat
  y : Nat
deriving DecidableEq

/-! ## Grid model -/

/-- The double loop that clears the grid:
`for x in [0, BASE_SIZE) for y in [0, BASE_SIZE) _facilities[x][y] = 0`. -/
def clearGrid (BASE_SIZE : Nat) (g : Grid) : Grid :=
  (forRange 0 BASE_SIZE).foldl
    (fun g x => (forRange 0 BASE_SIZE).foldl (fun g y => g.set x y none) g) g

/-- The loop body of the fill for one facility `f`:
`for y in [f.y, f.y + size) for x in [f.x, f.x + size) _facilities[x][y] = f`. -/
def placeFacility (g : Grid) (f : BaseFacility) : Grid :=
  (forRange f.y (f.y + f.rules.size)).foldl
    (fun g y => (forRange f.x (f.x + f.rules.size)).foldl
      (fun g x => g.set x y (some f)) g) g

/-- The loop over `_base->getFacilities()` that fills the grid. -/
def fillGrid (fs : List BaseFacility) (g : Grid) : Grid :=
  fs.foldl placeFacility g

/-- The constructor `BaseView::BaseView`: every member is zeroed, the grid is
cleared, `_blink` starts true and a timer of period 100 is started.  `raw` is
the content of the array's memory before the constructor runs. -/
def BaseView.init (BASE_SIZE : Nat) (x y : Int) (raw : Grid) : BaseView :=
  { x := x, y := y, base := none, facilities := clearGrid BASE_SIZE raw,
    selFacility := none, gridX := 0, gridY := 0, selSize := 0,
    selector := .null, blink := true, timer := Timer.start 100 }

/-- The method `BaseView::setBase`.  The closing call of `draw()` paints the
view's own surface and changes none of the members modelled here. -/
def BaseView.setBase (BASE_SIZE : Nat) (v : BaseView) (base : Base) : BaseView :=
  { v with
    base := some base
    selFacility := none
    facilities := fillGrid base.facilities (clearGrid BASE_SIZE v.facilities) }

/-- The method `BaseView::getSelectedFacility`. -/
def BaseView.getSelectedFacility (v : BaseView) : Option BaseFacility :=
  v.selFacility

/-- The method `BaseView::getGridX`. -/
def BaseView.getGridX (v : BaseView) : Int := v.gridX

/-- The method `BaseView::getGridY`. -/
def BaseView.getGridY (v : BaseView) : Int := v.gridY

/-! ## Placement validator -/

/-- The first loop nest of `isPlaceable`, "check if square isn't occupied":
true when some iteration executes `return false`. -/
def occupiedScan (BASE_SIZE : Nat) (g : Grid) (gridX gridY size : Int) : Bool :=
  (forRange gridY (gridY + size)).any fun y =>
    (forRange gridX (gridX + size)).any fun x =>
      (decide (x > (BASE_SIZE : Int)) || decide (y > (BASE_SIZE : Int)))
        || (g x y).isSome

/-- The second loop of `isPlaceable`, "check for another facility to connect
to": true when some iteration executes `return true`.  Each `&&` guards the
array reads to its right. -/
def connectScan (BASE_SIZE : Nat) (g : Grid) (gridX gridY size : Int) : Bool :=
  (forRange 0 size).any fun i =>
    (decide (gridX > 0) && operationalAt g (gridX - 1) (gridY + i)) ||
    (decide (gridY > 0) && operationalAt g (gridX + i) (gridY - 1)) ||
    (decide (gridX + size < (BASE_SIZE : Int)) && operationalAt g (gridX + size) (gridY + i)) ||
    (decide (gridY + size < (BASE_SIZE : Int)) && operationalAt g (gridX + i) (gridY + size))

/-- The method `BaseView::isPlaceable`. -/
def BaseView.isPlaceable (BASE_SIZE : Nat) (v : BaseView) (rule : RuleBaseFacility) : Bool :=
  if occupiedScan BASE_SIZE v.facilities v.gridX v.gridY rule.size then false
  else connectScan BASE_SIZE v.facilities v.gridX v.gridY rule.size

/-! ## Placement validator with its array reads

The same control flow as `isPlaceable`, returning next to each result the
index pairs at which `_facilities` is read, in the order of the reads.  A
cell that the source tests twice in one condition (`!= 0`, then
`->getBuildTime()`) is listed once. -/

/-- The inner loop of the occupancy check on row `y`: whether it executed
`return false`, and the cells read. -/
def occupiedRowReads (BASE_SIZE : Nat) (g : Grid) (y : Int) :
    List Int → Bool × List (Int × Int)
  | [] => (false, [])
  | x :: xs =>
    if x > (BASE_SIZE : Int) ∨ y > (BASE_SIZE : Int) then (true, [])
    else if (g x y).isSome then (true, [(x, y)])
    else ((occupiedRowReads BASE_SIZE g y xs).1,
      (x, y) :: (occupiedRowReads BASE_SIZE g y xs).2)

/-- The outer loop of the occupancy check over the rows `ys`, each row
scanning the columns `xs`. -/
def occupiedReads (BASE_SIZE : Nat) (g : Grid) (xs : List Int) :
    List Int → Bool × List (Int × Int)
  | [] => (false, [])
  | y :: ys =>
    if (occupiedRowReads BASE_SIZE g y xs).1 then (true, (occupiedRowReads BASE_SIZE g y xs).2)
    else ((occupiedReads BASE_SIZE g xs ys).1,
      (occupiedRowReads BASE_SIZE g y xs).2 ++ (occupiedReads BASE_SIZE g xs ys).2)

/-- One operand `guard && _facilities[x][y] != 0 && ...->getBuildTime() == 0`
of the connectivity condition: the cell is read only when the guard holds. -/
def guardedRead (guard : Bool) (g : Grid) (x y : Int) : Bool × List (Int × Int) :=
  if guard then (operationalAt g x y, [(x, y)]) else (false, [])

/-- The operator `||` on two operands with their reads: the right operand is
evaluated only when the left one is false. -/
def orElseReads (a b : Bool × List (Int × Int)) : Bool × List (Int × Int) :=
  if a.1 then a else (b.1, a.2 ++ b.2)

/-- The condition of the connectivity loop for one value of `i`. -/
def connectStepReads (BASE_SIZE : Nat) (g : Grid) (gridX gridY size i : Int) :
    Bool × List (Int × Int) :=
  orElseReads (guardedRead (decide (gridX > 0)) g (gridX - 1) (gridY + i))
    (orElseReads (guardedRead (decide (gridY > 0)) g (gridX + i) (gridY - 1))
      (orElseReads
        (guardedRead (decide (gridX + size < (BASE_SIZE : Int))) g (gridX + size) (gridY + i))
        (guardedRead (decide (gridY + size < (BASE_SIZE : Int))) g (gridX + i)
          (gridY + size))))

/-- The connectivity loop over the values `is` of `i`: whether it executed
`return true`, and the cells read. -/
def connectReads (BASE_SIZE : Nat) (g : Grid) (gridX gridY size : Int) :
    List Int → Bool × List (Int × Int)
  | [] => (false, [])
  | i :: is =>
    if (connectStepReads BASE_SIZE g gridX gridY size i).1 then
      (true, (connectStepReads BASE_SIZE g gridX gridY size i).2)
    else ((connectReads BASE_SIZE g gridX gridY size is).1,
      (connectStepReads BASE_SIZE g gridX gridY size i).2 ++
        (connectReads BASE_SIZE g gridX gridY size is).2)

/-- The method `BaseView::isPlaceable` with the cells it reads. -/
def BaseView.isPlaceableReads (BASE_SIZE : Nat) (v : BaseView) (rule : RuleBaseFacility) :
    Bool × List (Int × Int) :=
  let o := occupiedReads BASE_SIZE v.facilities (forRange v.gridX (v.gridX + rule.size))
    (forRange v.gridY (v.gridY + rule.size))
  if o.1 then (false, o.2)
  else
    let c := connectReads BASE_SIZE v.facilities v.gridX v.gridY rule.size
      (forRange 0 rule.size)
    (c.1, o.2 ++ c.2)

/-! ## Pointer mapper -/

/-- One axis of the pointer mapping in `mouseOver`:
`double x = p - origin * scale; (int)floor(x / (GRID_SIZE * scale))`.
Both operands of the division are integers that a `double` holds exactly, and
the rounded quotient of two such integers has the same floor as the exact
quotient, so the result is the floor of the exact quotient.  Callers pass a
scale of at least 1; for scale 0 the C++ conversion is undefined. -/
def gridCoord (p : Nat) (origin scale : Int) : Int :=
  Int.fdiv ((p : Int) - origin * scale) (GRID_SIZE * scale)

/-- The method `BaseView::mouseOver`.  The closing call of
`InteractiveSurface::mouseOver` dispatches to event handlers and changes none
of the members modelled here. -/
def BaseView.mouseOver (BASE_SIZE : Nat) (v : BaseView) (ev : MouseEvent) (scale : Int) :
    BaseView :=
  let gx := gridCoord ev.x v.x scale
  let gy := gridCoord ev.y v.y scale
  if gx ≥ 0 ∧ gx < (BASE_SIZE : Int) ∧ gy ≥ 0 ∧ gy < (BASE_SIZE : Int) then
    { v with
      gridX := gx
      gridY := gy
      selFacility := v.facilities gx gy
      selector :=
        if v.selSize > 0 then
          if gx + v.selSize - 1 < (BASE_SIZE : Int) ∧ gy + v.selSize - 1 < (BASE_SIZE : Int) then
            (v.selector.setXY (v.x + gx * GRID_SIZE) (v.y + gy * GRID_SIZE)).setVisible true
          else v.selector.setVisible false
        else v.selector }
  else
    { v with
      gridX := gx
      gridY := gy
      selFacility := none
      selector := if v.selSize > 0 then v.selector.setVisible false else v.selector }

/-- The method `BaseView::mouseOut`.  The closing call of
`InteractiveSurface::mouseOut` dispatches to event handlers and changes none
of the members modelled here. -/
def BaseView.mouseOut (v : BaseView) : BaseView :=
  { v with
    selFacility := none
    selector := if v.selSize > 0 then v.selector.setVisible false else v.selector }

/-! ## Selection overlay -/

/-- The method `BaseView::setSelectable`: a positive size creates a new
selector surface of `size * GRID_SIZE` pixels square at the view's position,
paints the bordered rectangle on it and hides it; any other size deletes the
selector. -/
def BaseView.setSelectable (v : BaseView) (size : Int) : BaseView :=
  { v with
    selSize := size
    selector :=
      if size > 0 then
        .live { width := size * GRID_SIZE, height := size * GRID_SIZE,
                x := v.x, y := v.y, visible := false, bordered := true }
      else v.selector.delete }

/-- The method `BaseView::blink`: the flag is negated and, when selection is
enabled, the selector is repainted, bordered if the new flag is true and flat
otherwise. -/
def BaseView.blinkStep (v : BaseView) : BaseView :=
  { v with
    blink := !v.blink
    selector := if v.selSize > 0 then v.selector.paint (!v.blink) else v.selector }

/-- The method `BaseView::think`, which hands over to the timer:
`_timer->think(0, this)`.  `elapsed` is the time gone by since the previous
call; the timer's callback is `BaseView::blink`. -/
def BaseView.think (v : BaseView) (elapsed : Nat) : BaseView :=
  let r := v.timer.tick elapsed
  if r.2 then BaseView.blinkStep { v with timer := r.1 } else { v with timer := r.1 }

/-- The operations on a view that the claims range over. -/
inductive ViewOp where
  | setBase : Base → ViewOp
  | setSelectable : Int → ViewOp
  | mouseOver : MouseEvent → Int → ViewOp
  | mouseOut : ViewOp
  | blink : ViewOp
  | think : Nat → ViewOp

/-- One operation applied to a view. -/
def BaseView.step (BASE_SIZE : Nat) (v : BaseView) (op : ViewOp) : BaseView :=
  match op with
  | .setBase base => v.setBase BASE_SIZE base
  | .setSelectable size => v.setSelectable size
  | .mouseOver ev scale => v.mouseOver BASE_SIZE ev scale
  | .mouseOut => v.mouseOut
  | .blink => v.blinkStep
  | .think elapsed => v.think elapsed

/-- A sequence of operations applied to a view, first to last. -/
def BaseView.run (BASE_SIZE : Nat) (v : BaseView) (ops : List ViewOp) : BaseView :=
  ops.foldl (BaseView.step BASE_SIZE) v

/-- What `BaseView::blit` does after blitting the view's own surface: the
test `_selector != 0` fails and nothing more happens, or `_selector->blit` is
called on a live surface, or it is called on a surface that has been
deleted. -/
inductive SelectorBlit where
  | skipped : SelectorBlit
  | blitted : Selector → SelectorBlit
  | deletedSurface : SelectorBlit
deriving DecidableEq

/-- The method `BaseView::blit`, as far as the selector is concerned. -/
def BaseView.blit (v : BaseView) : SelectorBlit :=
  match v.selector with
  | .null => .skipped
  | .live s => .blitted s
  | .deleted => .deletedSurface

/-! ## Render composer

`draw` is embedded as the list of blits it issues, in order.  Each blit
carries a tag naming the statement of `draw` that issued it; the tag is not
part of what is painted.  The texture set is assumed to be set and to hold
every frame asked for. -/

/-- The six blitting statements of `draw`. -/
inductive Layer where
  | background : Layer
  | shape : Layer
  | connector : Layer
  | icon : Layer
  | craft : Layer
  | countdown : Layer
deriving DecidableEq

/-- One blit of `draw`: the frame `frame` of the texture set at pixel
`(x, y)`, or a text of the given content at `(x, y)` with the given width and
height. -/
inductive DrawOp where
  | sprite : Layer → Int → Int → Int → DrawOp
  | text : String → Int → Int → Int → Int → DrawOp
deriving DecidableEq

/-- The statement of `draw` that issued a blit; texts come from the countdown
statement. -/
def DrawOp.layer (op : DrawOp) : Layer :=
  match op with
  | .sprite l _ _ _ => l
  | .text _ _ _ _ _ => .countdown

/-- The first loop of `draw`, "draw grid squares": frame 0 for `x` and `y`
in `[0, 8)`. -/
def drawBackground : List DrawOp :=
  (forRange 0 8).flatMap fun x =>
    (forRange 0 8).map fun y => DrawOp.sprite .background 0 (x * GRID_SIZE) (y * GRID_SIZE)

/-- The cells `(x, y)` visited by the loop nest
`for y in [f.y, f.y + size) for x in [f.x, f.x + size)`, in order. -/
def footprintCells (f : BaseFacility) : List (Int × Int) :=
  (forRange f.y (f.y + f.rules.size)).flatMap fun y =>
    (forRange f.x (f.x + f.rules.size)).map fun x => (x, y)

/-- The frame chosen for the cell reached when the counter `num` has the
given value: `getSpriteShape() + num` for build time 0, and
`getSpriteShape() + num + 2 + getSize()` otherwise. -/
def shapeFrame (f : BaseFacility) (num : Nat) : Int :=
  if f.buildTime = 0 then f.rules.spriteShape + (num : Int)
  else f.rules.spriteShape + (num : Int) + 2 + f.rules.size

/-- The body of the second loop of `draw`, "draw facility shape", for one
facility; `num` counts the cells visited so far. -/
def drawShape (f : BaseFacility) : List DrawOp :=
  (footprintCells f).enum.map fun p =>
    DrawOp.sprite .shape (shapeFrame f p.1) (p.2.1 * GRID_SIZE) (p.2.2 * GRID_SIZE)

/-- The second loop of `draw`. -/
def drawShapes (fs : List BaseFacility) : List DrawOp :=
  fs.flatMap drawShape

/-- The body of the third loop of `draw`, "draw connectors", for one
facility: frame 7 for facilities to the right, then frame 8 for facilities
to the bottom. -/
def drawConnector (BASE_SIZE : Nat) (g : Grid) (f : BaseFacility) : List DrawOp :=
  if f.buildTime = 0 then
    (if f.x + f.rules.size < (BASE_SIZE : Int) then
      (forRange f.y (f.y + f.rules.size)).flatMap fun y =>
        if operationalAt g (f.x + f.rules.size) y then
          [DrawOp.sprite .connector 7
            ((f.x + f.rules.size) * GRID_SIZE - Int.tdiv GRID_SIZE 2) (y * GRID_SIZE)]
        else []
    else []) ++
    (if f.y + f.rules.size < (BASE_SIZE : Int) then
      (forRange f.x (f.x + f.rules.size)).flatMap fun x =>
        if operationalAt g x (f.y + f.rules.size) then
          [DrawOp.sprite .connector 8
            (x * GRID_SIZE) ((f.y + f.rules.size) * GRID_SIZE - Int.tdiv GRID_SIZE 2)]
        else []
    else [])
  else []

/-- The third loop of `draw`. -/
def drawConnectors (BASE_SIZE : Nat) (g : Grid) (fs : List BaseFacility) : List DrawOp :=
  fs.flatMap (drawConnector BASE_SIZE g)

/-- The first part of the body of the fourth loop of `draw`, "draw facility
graphic": every cell of the footprint is visited, and blitted only if the
size is 1. -/
def drawIcon (f : BaseFacility) : List DrawOp :=
  (footprintCells f).enum.flatMap fun p =>
    if f.rules.size = 1 then
      [DrawOp.sprite .icon (f.rules.spriteFacility + (p.1 : Int))
        (p.2.1 * GRID_SIZE) (p.2.2 * GRID_SIZE)]
    else []

/-- The second part of the body of the fourth loop, "draw crafts": the blit,
if any, and the crafts that remain after the iterator `craft`, whose remaining
range is `crafts`, has moved. -/
def drawCraft (f : BaseFacility) (crafts : List Craft) : List DrawOp × List Craft :=
  match crafts with
  | [] => ([], [])
  | c :: rest =>
    if f.buildTime = 0 ∧ f.rules.crafts > 0 then
      ([DrawOp.sprite .craft c.rules.sprite
          (f.x * GRID_SIZE + Int.tdiv ((f.rules.size - 1) * GRID_SIZE) 2)
          (f.y * GRID_SIZE + Int.tdiv ((f.rules.size - 1) * GRID_SIZE) 2)], rest)
    else ([], c :: rest)

/-- The third part of the body of the fourth loop, "draw time remaining". -/
def drawCountdown (f : BaseFacility) : List DrawOp :=
  if f.buildTime > 0 then
    [DrawOp.text (toString f.buildTime) (f.x * GRID_SIZE)
      (f.y * GRID_SIZE + Int.tdiv (GRID_SIZE * f.rules.size - 16) 2)
      (GRID_SIZE * f.rules.size) 16]
  else []

/-- The fourth loop of `draw`, with the craft iterator that it shares between
facilities. -/
def drawOverlays : List BaseFacility → List Craft → List DrawOp
  | [], _ => []
  | f :: fs, crafts =>
    drawIcon f ++ (drawCraft f crafts).1 ++ drawCountdown f ++
      drawOverlays fs (drawCraft f crafts).2

/-- The blits of `draw` for the grid `g` and the bound base. -/
def drawBase (BASE_SIZE : Nat) (g : Grid) (base : Base) : List DrawOp :=
  drawBackground ++ drawShapes base.facilities ++
    drawConnectors BASE_SIZE g base.facilities ++ drawOverlays base.facilities base.crafts

/-- The method `BaseView::draw`.  Without a bound base the method
dereferences a null pointer, which is `none`. -/
def BaseView.draw (BASE_SIZE : Nat) (v : BaseView) : Option (List DrawOp) :=
  v.base.map (drawBase BASE_SIZE v.facilities)

/-! ## Inventory sections (`RuleInventory.cpp`) -/

/-- The constants `SLOT_W`, `SLOT_H`, `HAND_W` and `HAND_H`, declared in
`RuleInventory.h`: pixel size of a slot and size of a hand in slots. -/
structure InventoryConsts where
  SLOT_W : Int
  SLOT_H : Int
  HAND_W : Int
  HAND_H : Int
deriving DecidableEq

/-- The enumeration `InventoryType`: slot-based sections, hands and ground. -/
inductive InventoryType where
  | INV_SLOT : InventoryType
  | INV_HAND : InventoryType
  | INV_GROUND : InventoryType
deriving DecidableEq

/-- The struct `RuleSlot`: grid position of a slot. -/
structure RuleSlot where
  x : Int
  y : Int
deriving DecidableEq

/-- The members of `RuleInventory`. -/
structure RuleInventory where
  id : String
  x : Int
  y : Int
  tus : Int
  type : InventoryType
  slots : List RuleSlot
deriving DecidableEq

/-- The constructor `RuleInventory::RuleInventory`. -/
def RuleInventory.init (id : String) : RuleInventory :=
  { id := id, x := 0, y := 0, tus := 0, type := .INV_SLOT, slots := [] }

/-- The method `RuleInventory::addSlot`: `_slots.push_back(s)`. -/
def RuleInventory.addSlot (r : RuleInventory) (x y : Int) : RuleInventory :=
  { r with slots := r.slots ++ [{ x := x, y := y }] }

/-- The condition tested for grid position `(sx, sy)` in both loops of
`checkSlotInPosition`. -/
def slotHit (c : InventoryConsts) (r : RuleInventory) (mouseX mouseY sx sy : Int) : Bool :=
  decide (mouseX ≥ r.x + sx * c.SLOT_W) && decide (mouseX < r.x + (sx + 1) * c.SLOT_W) &&
    decide (mouseY ≥ r.y + sy * c.SLOT_H) && decide (mouseY < r.y + (sy + 1) * c.SLOT_H)

/-- The loop over `_slots` in `checkSlotInPosition`: the return value and the
final values of `*x` and `*y`. -/
def checkSlots (c : InventoryConsts) (r : RuleInventory) (mouseX mouseY : Int) :
    List RuleSlot → Bool × Int × Int
  | [] => (false, mouseX, mouseY)
  | s :: rest =>
    if slotHit c r mouseX mouseY s.x s.y then (true, s.x, s.y)
    else checkSlots c r mouseX mouseY rest

/-- The method `RuleInventory::checkSlotInPosition` called with `*x = x` and
`*y = y`: the return value and the final values of `*x` and `*y`. -/
def RuleInventory.checkSlotInPosition (c : InventoryConsts) (r : RuleInventory)
    (x y : Int) : Bool × Int × Int :=
  if r.type = .INV_HAND then
    if (forRange 0 c.HAND_W).any fun xx =>
        (forRange 0 c.HAND_H).any fun yy => slotHit c r x y xx yy
    then (true, 0, 0)
    else (false, x, y)
  else checkSlots c r x y r.slots

/-! ## Craft weapons (`RuleCraftWeapon.cpp`) -/

/-- A scalar of a YAML document, represented by the value that was emitted:
the text that yaml-cpp writes for an `int` reads back as that `int` and the
text it writes for a string reads back as that string. -/
inductive YamlScalar where
  | str : String → YamlScalar
  | int : Int → YamlScalar
deriving DecidableEq

/-- A YAML map node: its key/value pairs in document order. -/
abbrev YamlMap := List (String × YamlScalar)

/-- The extraction `node >> s` into a `std::string`. -/
def YamlScalar.readString (v : YamlScalar) : Option String :=
  match v with
  | .str s => some s
  | .int n => some (toString n)

/-- The extraction `node >> n` into an `int`, which throws (here `none`) when
the scalar is not a number. -/
def YamlScalar.readInt (v : YamlScalar) : Option Int :=
  match v with
  | .int n => some n
  | .str s => s.toInt?

/-- The members of `RuleCraftWeapon`. -/
structure RuleCraftWeapon where
  type : String
  sprite : Int
  sound : Int
  damage : Int
  range : Int
  accuracy : Int
  reloadCautious : Int
  reloadStandard : Int
  reloadAggressive : Int
  ammoMax : Int
  rearmRate : Int
  launcher : String
  clip : String
deriving DecidableEq

/-- The constructor `RuleCraftWeapon::RuleCraftWeapon`. -/
def RuleCraftWeapon.init (type : String) : RuleCraftWeapon :=
  { type := type, sprite := -1, sound := -1, damage := 0, range := 0, accuracy := 0,
    reloadCautious := 0, reloadStandard := 0, reloadAggressive := 0, ammoMax := 0,
    rearmRate := 1, launcher := "", clip := "" }

/-- The body of the loop in `RuleCraftWeapon::load` for one key/value pair:
the chain of `if (key == ...)` tests.  A failed extraction throws, which is
`none`. -/
def RuleCraftWeapon.loadEntry (w : RuleCraftWeapon) (key : String) (value : YamlScalar) :
    Option RuleCraftWeapon :=
  if key = "type" then value.readString.map fun s => { w with type := s }
  else if key = "sprite" then value.readInt.map fun n => { w with sprite := n }
  else if key = "sound" then value.readInt.map fun n => { w with sound := n }
  else if key = "damage" then value.readInt.map fun n => { w with damage := n }
  else if key = "range" then value.readInt.map fun n => { w with range := n }
  else if key = "accuracy" then value.readInt.map fun n => { w with accuracy := n }
  else if key = "reloadCautious" then
    value.readInt.map fun n => { w with reloadCautious := n }
  else if key = "reloadStandard" then
    value.readInt.map fun n => { w with reloadStandard := n }
  else if key = "reloadAggressive" then
    value.readInt.map fun n => { w with reloadAggressive := n }
  else if key = "ammoMax" then value.readInt.map fun n => { w with ammoMax := n }
  else if key = "rearmRate" then value.readInt.map fun n => { w with rearmRate := n }
  else if key = "launcher" then value.readString.map fun s => { w with launcher := s }
  else if key = "clip" then value.readString.map fun s => { w with clip := s }
  else some w

/-- The method `RuleCraftWeapon::load`: the pairs of the node are processed in
order. -/
def RuleCraftWeapon.load (w : RuleCraftWeapon) : YamlMap → Option RuleCraftWeapon
  | [] => some w
  | (key, value) :: rest =>
    match w.loadEntry key value with
    | some w2 => w2.load rest
    | none => none

/-- The method `RuleCraftWeapon::save`: the map that the emitter is given. -/
def RuleCraftWeapon.save (w : RuleCraftWeapon) : YamlMap :=
  [("type", .str w.type), ("sprite", .int w.sprite), ("sound", .int w.sound),
   ("damage", .int w.damage), ("range", .int w.range), ("accuracy", .int w.accuracy),
   ("reloadCautious", .int w.reloadCautious), ("reloadStandard", .int w.reloadStandard),
   ("reloadAggressive", .int w.reloadAggressive), ("ammoMax", .int w.ammoMax),
   ("rearmRate", .int w.rearmRate), ("launcher", .str w.launcher), ("clip", .str w.clip)]

/-! ## Vocabulary of the specification -/

/-- Cell `(x, y)` lies in the footprint square
`[f.x, f.x + size) x [f.y, f.y + size)` of facility `f`. -/
def BaseFacility.covers (f : BaseFacility) (x y : Int) : Prop :=
  f.x ≤ x ∧ x < f.x + f.rules.size ∧ f.y ≤ y ∧ y < f.y + f.rules.size

instance (f : BaseFacility) (x y : Int) : Decidable (f.covers x y) := by
  unfold BaseFacility.covers; infer_instance

/-- Cell `(x, y)` lies on the board `[0, BASE_SIZE) x [0, BASE_SIZE)`. -/
def onBoard (BASE_SIZE : Nat) (x y : Int) : Prop :=
  0 ≤ x ∧ x < (BASE_SIZE : Int) ∧ 0 ≤ y ∧ y < (BASE_SIZE : Int)

instance (BASE_SIZE : Nat) (x y : Int) : Decidable (onBoard BASE_SIZE x y) := by
  unfold onBoard; infer_instance

/-- Cell `(x, y)` lies in the candidate footprint
`[gridX, gridX + size) x [gridY, gridY + size)`. -/
def inFootprint (gridX gridY size x y : Int) : Prop :=
  gridX ≤ x ∧ x < gridX + size ∧ gridY ≤ y ∧ y < gridY + size

instance (gridX gridY size x y : Int) : Decidable (inFootprint gridX gridY size x y) := by
  unfold inFootprint; infer_instance

/-- Cell `(x, y)` is outside the candidate footprint and shares an edge with
one of its cells `(a, b)`. -/
def edgeNeighbour (gridX gridY size x y : Int) : Prop :=
  ¬ inFootprint gridX gridY size x y ∧
    ∃ a b, inFootprint gridX gridY size a b ∧
      ((x = a ∧ (y = b + 1 ∨ y = b - 1)) ∨ (y = b ∧ (x = a + 1 ∨ x = a - 1)))

/-- The quotient `floor(a / b)` of the specification: the exact quotient of
two integers, rounded down. -/
def floorQuot (a b : Int) : Int := ⌊(a : ℚ) / (b : ℚ)⌋

/-- An enabled selection has a live selector surface: the state in which
`setSelectable` leaves the two members. -/
def selectorReady (v : BaseView) : Prop :=
  v.selSize > 0 → ∃ sel, v.selector = .live sel

/-- The countdown of the view's timer is under way: a positive period with a
positive part of it remaining. -/
def timerRunning (v : BaseView) : Prop :=
  0 < v.timer.interval ∧ 0 < v.timer.remaining

/-- Every footprint of the base's facility list lies on the board. -/
def Base.fitsBoard (BASE_SIZE : Nat) (base : Base) : Prop :=
  ∀ f ∈ base.facilities, ∀ x y, f.covers x y → onBoard BASE_SIZE x y

/-- An operation whose facility list, if it has one, lies on the board. -/
def ViewOp.fitsBoard (BASE_SIZE : Nat) (op : ViewOp) : Prop :=
  match op with
  | .setBase base => base.fitsBoard BASE_SIZE
  | _ => True

/-- An operation other than `setBase`. -/
def ViewOp.keepsBase (op : ViewOp) : Prop :=
  match op with
  | .setBase _ => False
  | _ => True

/-- The mouse position lies in the pixel rectangle of the slot at grid
position `(sx, sy)` of the section. -/
def inSlotRect (c : InventoryConsts) (r : RuleInventory) (mouseX mouseY sx sy : Int) : Prop :=
  r.x + sx * c.SLOT_W ≤ mouseX ∧ mouseX < r.x + (sx + 1) * c.SLOT_W ∧
    r.y + sy * c.SLOT_H ≤ mouseY ∧ mouseY < r.y + (sy + 1) * c.SLOT_H

instance (c : InventoryConsts) (r : RuleInventory) (mouseX mouseY sx sy : Int) :
    Decidable (inSlotRect c r mouseX mouseY sx sy) := by
  unfold inSlotRect; infer_instance

/-- The thirteen keys of a craft weapon's map. -/
def craftWeaponKeys : List String :=
  ["type", "sprite", "sound", "damage", "range", "accuracy", "reloadCautious",
   "reloadStandard", "reloadAggressive", "ammoMax", "rearmRate", "launcher", "clip"]

/-- The field of a craft weapon stored under `key`, if `key` is one of the
thirteen keys. -/
def RuleCraftWeapon.field (w : RuleCraftWeapon) (key : String) : Option YamlScalar :=
  if key = "type" then some (.str w.type)
  else if key = "sprite" then some (.int w.sprite)
  else if key = "sound" then some (.int w.sound)
  else if key = "damage" then some (.int w.damage)
  else if key = "range" then some (.int w.range)
  else if key = "accuracy" then some (.int w.accuracy)
  else if key = "reloadCautious" then some (.int w.reloadCautious)
  else if key = "reloadStandard" then some (.int w.reloadStandard)
  else if key = "reloadAggressive" then some (.int w.reloadAggressive)
  else if key = "ammoMax" then some (.int w.ammoMax)
  else if key = "rearmRate" then some (.int w.rearmRate)
  else if key = "launcher" then some (.str w.launcher)
  else if key = "clip" then some (.str w.clip)
  else none

/-- A facility that can show a docked craft: operational and with hangar
capacity. -/
def hangarReady (f : BaseFacility) : Bool :=
  decide (f.buildTime = 0 ∧ f.rules.crafts > 0)

/-- A facility with a footprint of one cell. -/
def singleCell (f : BaseFacility) : Bool :=
  decide (f.rules.size = 1)

/-- A facility under construction with time left to count down. -/
def countingDown (f : BaseFacility) : Bool :=
  decide (f.buildTime > 0)

/-- The icon of craft `c` centred on the footprint of facility `f`: the
32-pixel sprite is offset by half of what the footprint has beyond one
cell. -/
def craftIcon (f : BaseFacility) (c : Craft) : DrawOp :=
  DrawOp.sprite .craft c.rules.sprite (f.x * 32 + (f.rules.size - 1) * 16)
    (f.y * 32 + (f.rules.size - 1) * 16)

/-- The icon of a single-cell facility, at its cell. -/
def facilityIcon (f : BaseFacility) : DrawOp :=
  DrawOp.sprite .icon f.rules.spriteFacility (f.x * 32) (f.y * 32)

/-- The countdown of a facility: its build time in decimal, in a box 16
pixels high and as wide as the footprint, centred vertically on it. -/
def countdownText (f : BaseFacility) : DrawOp :=
  DrawOp.text (toString f.buildTime) (f.x * 32) (f.y * 32 + (16 * f.rules.size - 8))
    (32 * f.rules.size) 16

/-- The position of a layer in the draw order of the specification. -/
def Layer.rank (l : Layer) : Nat :=
  match l with
  | .background => 1
  | .shape => 2
  | .connector => 3
  | .icon => 4
  | .craft => 5
  | .countdown => 6

/-- The draw order with the three per-facility layers taken together. -/
def Layer.pass (l : Layer) : Nat :=
  match l with
  | .background => 1
  | .shape => 2
  | .connector => 3
  | .icon => 4
  | .craft => 4
  | .countdown => 4

/-- Each layer comes entirely before the next: layer positions never
decrease along the sequence of blits. -/
def layersInOrder (l : List DrawOp) : Prop :=
  l.Pairwise fun a b => a.layer.rank ≤ b.layer.rank

/-- An operation other than `setSelectable`. -/
def ViewOp.keepsSelection (op : ViewOp) : Prop :=
  match op with
  | .setSelectable _ => False
  | _ => True

/-- The facilities of a list have pairwise no cell in common. -/
def nonOverlapping (fs : List BaseFacility) : Prop :=
  fs.Pairwise fun f g => ∀ x y, ¬ (f.covers x y ∧ g.covers x y)

/-! ## Scenario data -/

/-- A facility rule of the given footprint size. -/
def ruleOfSize (n : Int) : RuleBaseFacility :=
  { size := n, spriteShape := 0, spriteFacility := 0, crafts := 0 }

/-- A facility of footprint size `n` at `(x, y)` with build time `t`. -/
def facilityAt (n x y t : Int) : BaseFacility :=
  { rules := ruleOfSize n, x := x, y := y, buildTime := t }

/-- A grid with nothing in it, on or off the board. -/
def emptyGrid : Grid := fun _ _ => none

/-- A freshly constructed view at the screen origin. -/
def freshView (BASE_SIZE : Nat) : BaseView := BaseView.init BASE_SIZE 0 0 emptyGrid

/-- The scenario base: one operational 1x1 facility at `(2, 2)`. -/
def scenarioBase : Base := { facilities := [facilityAt 1 2 2 0], crafts := [] }

/-- The scenario view on a 6x6 board, hovering over cell `(hx, hy)`. -/
def scenarioView (hx hy : Int) : BaseView :=
  { BaseView.setBase 6 (freshView 6) scenarioBase with gridX := hx, gridY := hy }

/-- A base with an operational 2x2 facility at `(0, 0)` and a 1x1 facility
under construction at `(2, 2)`. -/
def twoFacilityBase : Base :=
  { facilities := [facilityAt 2 0 0 0, facilityAt 1 2 2 3], crafts := [] }

/-- The view on a 6x6 board showing `twoFacilityBase`, hovering over
cell `(hx, hy)`. -/
def twoFacilityView (hx hy : Int) : BaseView :=
  { BaseView.setBase 6 (freshView 6) twoFacilityBase with gridX := hx, gridY := hy }

/-- A base with one operational 1x1 facility at `(0, 4)`. -/
def edgeBase : Base := { facilities := [facilityAt 1 0 4 0], crafts := [] }

/-- The view on a 6x6 board showing `edgeBase` after the pointer has moved to
pixel `(10, 170)` at scale 1, which is over the bottom-left cell `(0, 5)`. -/
def edgeView : BaseView :=
  (BaseView.setBase 6 (freshView 6) edgeBase).mouseOver 6 ⟨10, 170⟩ 1

/-- A view on a 6x6 board placed at `(192, 8)`, away from the screen origin. -/
def offsetView : BaseView := BaseView.init 6 192 8 emptyGrid

/-- The view at `(192, 8)` on a 6x6 board with selection enabled for a 2x2
footprint. -/
def selectingView : BaseView := offsetView.setSelectable 2

/-- A base with two overlapping 2x2 facilities, the second under
construction. -/
def overlapBase : Base :=
  { facilities := [facilityAt 2 0 0 0, facilityAt 2 1 1 5], crafts := [] }

/-- The view at `(192, 8)` on an empty 6x6 board after the pointer has moved
to pixel `(100, 16)` at scale 1, left of the view: hover cell `(-3, 0)`. -/
def leftOfView : BaseView := offsetView.mouseOver 6 ⟨100, 16⟩ 1

/-- Slots of 16x16 pixels and a hand of 2x3 slots. -/
def slotConsts : InventoryConsts := { SLOT_W := 16, SLOT_H := 16, HAND_W := 2, HAND_H := 3 }

/-- A slot section at `(10, 20)` to which the slots `(0, 0)`, `(1, 0)` and
again `(1, 0)` have been added. -/
def beltSection : RuleInventory :=
  (((({ RuleInventory.init "belt" with x := 10, y := 20 }).addSlot 0 0).addSlot 1 0).addSlot
    1 0)

/-- A hand section at `(10, 20)` with one slot added. -/
def handSection : RuleInventory :=
  ({ RuleInventory.init "hand" with x := 10, y := 20, type := .INV_HAND }).addSlot 0 0

/-- A hangar rule: footprint 2x2, shape sprites from 9, room for one craft. -/
def hangarRule : RuleBaseFacility :=
  { size := 2, spriteShape := 9, spriteFacility := 0, crafts := 1 }

/-- A single-cell rule: shape sprite 3, icon sprite 20, no room for craft. -/
def labRule : RuleBaseFacility :=
  { size := 1, spriteShape := 3, spriteFacility := 20, crafts := 0 }

/-- A base with an operational hangar at `(0, 0)`, an operational lab at
`(2, 0)`, a lab under construction at `(2, 1)` and a second operational
hangar at `(3, 3)`, with one craft of sprite 33. -/
def hangarBase : Base :=
  { facilities :=
      [{ rules := hangarRule, x := 0, y := 0, buildTime := 0 },
       { rules := labRule, x := 2, y := 0, buildTime := 0 },
       { rules := labRule, x := 2, y := 1, buildTime := 4 },
       { rules := hangarRule, x := 3, y := 3, buildTime := 0 }],
    crafts := [{ rules := { sprite := 33 } }] }

/-- The view on a 6x6 board showing `hangarBase`. -/
def hangarView : BaseView := (freshView 6).setBase 6 hangarBase

/-- A session in which selection is enabled for a 2x2 footprint, the overlay
is shown over cell `(1, 1)`, selection is disabled again, and the pointer
moves, the timer callback fires and the pointer leaves. -/
def staleOps : List ViewOp :=
  [.setSelectable 2, .mouseOver ⟨40, 40⟩ 1, .setSelectable 0, .mouseOver ⟨40, 40⟩ 1,
   .blink, .mouseOut]

/-- A session on a 6x6 board: enable selection, show `twoFacilityBase`, move
the pointer over cell `(1, 1)`, let the selector blink, show a base with two
overlapping facilities, and move the pointer away. -/
def sessionOps : List ViewOp :=
  [.setSelectable 2, .setBase twoFacilityBase, .mouseOver ⟨40, 40⟩ 1, .blink,
   .setBase { facilities := [facilityAt 2 0 0 0, facilityAt 2 1 1 5], crafts := [] },
   .mouseOut]

end OpenXcom

namespace OpenXcom

/-! ## Loops as folds -/

theorem mem_forRange (a b k : Int) : k ∈ forRange a b ↔ a ≤ k ∧ k < b := by
  unfold forRange
  simp only [List.mem_map, List.mem_range]
  constructor
  · rintro ⟨n, hn, rfl⟩
    omega
  · intro h
    exact ⟨(k - a).toNat, by omega, by omega⟩

theorem Grid.set_apply (g : Grid) (x y : Int) (v : Option BaseFacility) (p q : Int) :
    g.set x y v p q = if p = x ∧ q = y then v else g p q := rfl

theorem foldl_set_row (xs : List Int) (y : Int) (v : Option BaseFacility) (g : Grid)
    (p q : Int) :
    (xs.foldl (fun g x => g.set x y v) g) p q = if p ∈ xs ∧ q = y then v else g p q := by
  induction xs generalizing g with
  | nil => simp
  | cons x xs ih =>
    rw [List.foldl_cons, ih, Grid.set_apply]
    by_cases h1 : p ∈ xs ∧ q = y
    · have h2 : p ∈ x :: xs ∧ q = y := ⟨List.mem_cons_of_mem _ h1.1, h1.2⟩
      rw [if_pos h1, if_pos h2]
    · rw [if_neg h1]
      by_cases h3 : p = x ∧ q = y
      · have h2 : p ∈ x :: xs ∧ q = y := ⟨h3.1 ▸ List.mem_cons_self _ _, h3.2⟩
        rw [if_pos h3, if_pos h2]
      · have h2 : ¬ (p ∈ x :: xs ∧ q = y) := by
          rintro ⟨hm, hq⟩
          rcases List.mem_cons.mp hm with hpx | hpx
          · exact h3 ⟨hpx, hq⟩
          · exact h1 ⟨hpx, hq⟩
        rw [if_neg h3, if_neg h2]

theorem foldl_set_col (ys : List Int) (x : Int) (v : Option BaseFacility) (g : Grid)
    (p q : Int) :
    (ys.foldl (fun g y => g.set x y v) g) p q = if p = x ∧ q ∈ ys then v else g p q := by
  induction ys generalizing g with
  | nil => simp
  | cons y ys ih =>
    rw [List.foldl_cons, ih, Grid.set_apply]
    by_cases h1 : p = x ∧ q ∈ ys
    · have h2 : p = x ∧ q ∈ y :: ys := ⟨h1.1, List.mem_cons_of_mem _ h1.2⟩
      rw [if_pos h1, if_pos h2]
    · rw [if_neg h1]
      by_cases h3 : p = x ∧ q = y
      · have h2 : p = x ∧ q ∈ y :: ys := ⟨h3.1, h3.2 ▸ List.mem_cons_self _ _⟩
        rw [if_pos h3, if_pos h2]
      · have h2 : ¬ (p = x ∧ q ∈ y :: ys) := by
          rintro ⟨hp, hm⟩
          rcases List.mem_cons.mp hm with hqy | hqy
          · exact h3 ⟨hp, hqy⟩
          · exact h1 ⟨hp, hqy⟩
        rw [if_neg h3, if_neg h2]

theorem foldl_rows (ys xs : List Int) (v : Option BaseFacility) (g : Grid) (p q : Int) :
    (ys.foldl (fun g y => xs.foldl (fun g x => g.set x y v) g) g) p q
      = if p ∈ xs ∧ q ∈ ys then v else g p q := by
  induction ys generalizing g with
  | nil => simp
  | cons y ys ih =>
    rw [List.foldl_cons, ih, foldl_set_row]
    by_cases h1 : p ∈ xs ∧ q ∈ ys
    · have h2 : p ∈ xs ∧ q ∈ y :: ys := ⟨h1.1, List.mem_cons_of_mem _ h1.2⟩
      rw [if_pos h1, if_pos h2]
    · rw [if_neg h1]
      by_cases h3 : p ∈ xs ∧ q = y
      · have h2 : p ∈ xs ∧ q ∈ y :: ys := ⟨h3.1, h3.2 ▸ List.mem_cons_self _ _⟩
        rw [if_pos h3, if_pos h2]
      · have h2 : ¬ (p ∈ xs ∧ q ∈ y :: ys) := by
          rintro ⟨hp, hm⟩
          rcases List.mem_cons.mp hm with hqy | hqy
          · exact h3 ⟨hp, hqy⟩
          · exact h1 ⟨hp, hqy⟩
        rw [if_neg h3, if_neg h2]

theorem foldl_cols (xs ys : List Int) (v : Option BaseFacility) (g : Grid) (p q : Int) :
    (xs.foldl (fun g x => ys.foldl (fun g y => g.set x y v) g) g) p q
      = if p ∈ xs ∧ q ∈ ys then v else g p q := by
  induction xs generalizing g with
  | nil => simp
  | cons x xs ih =>
    rw [List.foldl_cons, ih, foldl_set_col]
    by_cases h1 : p ∈ xs ∧ q ∈ ys
    · have h2 : p ∈ x :: xs ∧ q ∈ ys := ⟨List.mem_cons_of_mem _ h1.1, h1.2⟩
      rw [if_pos h1, if_pos h2]
    · rw [if_neg h1]
      by_cases h3 : p = x ∧ q ∈ ys
      · have h2 : p ∈ x :: xs ∧ q ∈ ys := ⟨h3.1 ▸ List.mem_cons_self _ _, h3.2⟩
        rw [if_pos h3, if_pos h2]
      · have h2 : ¬ (p ∈ x :: xs ∧ q ∈ ys) := by
          rintro ⟨hm, hq⟩
          rcases List.mem_cons.mp hm with hpx | hpx
          · exact h3 ⟨hpx, hq⟩
          · exact h1 ⟨hpx, hq⟩
        rw [if_neg h3, if_neg h2]

/-! ## Grid model -/

theorem clearGrid_apply (BASE_SIZE : Nat) (g : Grid) (x y : Int) :
    clearGrid BASE_SIZE g x y = if onBoard BASE_SIZE x y then none else g x y := by
  unfold clearGrid
  rw [foldl_cols]
  simp only [mem_forRange, onBoard]
  by_cases h : (0 ≤ x ∧ x < (BASE_SIZE : Int)) ∧ 0 ≤ y ∧ y < (BASE_SIZE : Int)
  · rw [if_pos h, if_pos ⟨h.1.1, h.1.2, h.2.1, h.2.2⟩]
  · rw [if_neg h, if_neg (fun h2 => h ⟨⟨h2.1, h2.2.1⟩, h2.2.2.1, h2.2.2.2⟩)]

theorem placeFacility_apply (g : Grid) (f : BaseFacility) (x y : Int) :
    placeFacility g f x y = if f.covers x y then some f else g x y := by
  unfold placeFacility
  rw [foldl_rows]
  simp only [mem_forRange, BaseFacility.covers]
  by_cases h : (f.x ≤ x ∧ x < f.x + f.rules.size) ∧ f.y ≤ y ∧ y < f.y + f.rules.size
  · rw [if_pos h, if_pos ⟨h.1.1, h.1.2, h.2.1, h.2.2⟩]
  · rw [if_neg h, if_neg (fun h2 => h ⟨⟨h2.1, h2.2.1⟩, h2.2.2.1, h2.2.2.2⟩)]

theorem fillGrid_append (l1 l2 : List BaseFacility) (g : Grid) :
    fillGrid (l1 ++ l2) g = fillGrid l2 (fillGrid l1 g) := by
  unfold fillGrid
  rw [List.foldl_append]

theorem fillGrid_uncovered (fs : List BaseFacility) (g : Grid) (x y : Int)
    (h : ∀ f ∈ fs, ¬ f.covers x y) : fillGrid fs g x y = g x y := by
  induction fs generalizing g with
  | nil => rfl
  | cons f fs ih =>
    have hf : ¬ f.covers x y := h f (List.mem_cons_self _ _)
    have ht : ∀ f' ∈ fs, ¬ f'.covers x y := fun f' hm => h f' (List.mem_cons_of_mem _ hm)
    show fillGrid fs (placeFacility g f) x y = g x y
    rw [ih _ ht, placeFacility_apply, if_neg hf]

theorem fillGrid_last (l1 l2 : List BaseFacility) (f : BaseFacility) (g : Grid) (x y : Int)
    (hf : f.covers x y) (h2 : ∀ f' ∈ l2, ¬ f'.covers x y) :
    fillGrid (l1 ++ f :: l2) g x y = some f := by
  rw [fillGrid_append]
  show fillGrid l2 (placeFacility (fillGrid l1 g) f) x y = some f
  rw [fillGrid_uncovered _ _ _ _ h2, placeFacility_apply, if_pos hf]

theorem fillGrid_of_nonOverlapping (fs : List BaseFacility) (g : Grid) (f : BaseFacility)
    (x y : Int) (hno : nonOverlapping fs) (hm : f ∈ fs) (hf : f.covers x y) :
    fillGrid fs g x y = some f := by
  obtain ⟨l1, l2, rfl⟩ := List.append_of_mem hm
  apply fillGrid_last _ _ _ _ _ _ hf
  intro f' hm' hc
  have hp := (List.pairwise_append.mp hno).2.1
  exact (List.rel_of_pairwise_cons hp hm') x y ⟨hf, hc⟩

/-- C1. Grid rebuild: for a facility list whose footprints are pairwise
non-overlapping and lie on the board, and from any prior view state, after
`setBase` every cell covered by the footprint of a listed facility `f` holds
exactly `f`, every board cell covered by no facility holds none, and nothing
off the board is written. -/
theorem setBase_rebuilds_grid (BASE_SIZE : Nat) (v : BaseView) (base : Base)
    (hin : ∀ f ∈ base.facilities, ∀ x y, f.covers x y → onBoard BASE_SIZE x y)
    (hno : nonOverlapping base.facilities) :
    (∀ f ∈ base.facilities, ∀ x y, f.covers x y →
        (v.setBase BASE_SIZE base).facilities x y = some f) ∧
    (∀ x y, onBoard BASE_SIZE x y → (∀ f ∈ base.facilities, ¬ f.covers x y) →
        (v.setBase BASE_SIZE base).facilities x y = none) ∧
    (∀ x y, ¬ onBoard BASE_SIZE x y →
        (v.setBase BASE_SIZE base).facilities x y = v.facilities x y) := by
  refine ⟨?_, ?_, ?_⟩
  · intro f hm x y hf
    exact fillGrid_of_nonOverlapping _ _ f x y hno hm hf
  · intro x y hb hun
    show fillGrid base.facilities (clearGrid BASE_SIZE v.facilities) x y = none
    rw [fillGrid_uncovered _ _ _ _ hun, clearGrid_apply, if_pos hb]
  · intro x y hb
    have hun : ∀ f ∈ base.facilities, ¬ f.covers x y := fun f hm hc => hb (hin f hm x y hc)
    show fillGrid base.facilities (clearGrid BASE_SIZE v.facilities) x y = v.facilities x y
    rw [fillGrid_uncovered _ _ _ _ hun, clearGrid_apply, if_neg hb]

/-- Witness for C1 on a 6x6 board with two facilities. -/
theorem setBase_rebuilds_grid_witness :
    (∀ f ∈ twoFacilityBase.facilities, ∀ x y, f.covers x y → onBoard 6 x y) ∧
    nonOverlapping twoFacilityBase.facilities ∧
    ((freshView 6).setBase 6 twoFacilityBase).facilities 1 1 = some (facilityAt 2 0 0 0) ∧
    ((freshView 6).setBase 6 twoFacilityBase).facilities 3 3 = none := by
  have hin : ∀ f ∈ twoFacilityBase.facilities, ∀ x y, f.covers x y → onBoard 6 x y := by
    intro f hf x y hc
    simp only [twoFacilityBase, List.mem_cons, List.mem_singleton, List.not_mem_nil,
      or_false] at hf
    rcases hf with rfl | rfl <;>
      simp only [BaseFacility.covers, facilityAt, ruleOfSize] at hc <;>
      simp only [onBoard] <;> omega
  have hno : nonOverlapping twoFacilityBase.facilities := by
    simp only [nonOverlapping, twoFacilityBase, List.pairwise_cons, List.mem_singleton,
      List.not_mem_nil, forall_eq, BaseFacility.covers, facilityAt, ruleOfSize]
    refine ⟨?_, ?_, List.Pairwise.nil⟩
    · intro x y
      omega
    · intro a h
      exact absurd h (by simp)
  have h := setBase_rebuilds_grid 6 (freshView 6) twoFacilityBase hin hno
  refine ⟨hin, hno, ?_, ?_⟩
  · exact h.1 (facilityAt 2 0 0 0) (by simp [twoFacilityBase]) 1 1 (by decide)
  · refine h.2.1 3 3 (by decide) ?_
    intro f hf
    simp only [twoFacilityBase, List.mem_cons, List.mem_singleton, List.not_mem_nil,
      or_false] at hf
    rcases hf with rfl | rfl <;> decide

/-! ## Placement validator -/

theorem operationalAt_eq_true (g : Grid) (x y : Int) :
    operationalAt g x y = true ↔ ∃ f, g x y = some f ∧ f.buildTime = 0 := by
  unfold operationalAt
  cases h : g x y with
  | none => simp
  | some f => simp

theorem occupiedScan_eq_true (BASE_SIZE : Nat) (g : Grid) (gridX gridY size : Int) :
    occupiedScan BASE_SIZE g gridX gridY size = true ↔
      ∃ x y, inFootprint gridX gridY size x y ∧
        (x > (BASE_SIZE : Int) ∨ y > (BASE_SIZE : Int) ∨ g x y ≠ none) := by
  unfold occupiedScan inFootprint
  simp only [List.any_eq_true, mem_forRange, Bool.or_eq_true, decide_eq_true_eq,
    Option.isSome_iff_ne_none]
  constructor
  · rintro ⟨y, hy, x, hx, h⟩
    refine ⟨x, y, ⟨hx.1, hx.2, hy.1, hy.2⟩, ?_⟩
    rcases h with (h | h) | h
    · exact Or.inl h
    · exact Or.inr (Or.inl h)
    · exact Or.inr (Or.inr h)
  · rintro ⟨x, y, ⟨hx1, hx2, hy1, hy2⟩, h⟩
    refine ⟨y, ⟨hy1, hy2⟩, x, ⟨hx1, hx2⟩, ?_⟩
    rcases h with h | h | h
    · exact Or.inl (Or.inl h)
    · exact Or.inl (Or.inr h)
    · exact Or.inr h

theorem connectScan_eq_true (BASE_SIZE : Nat) (g : Grid) (gridX gridY size : Int) :
    connectScan BASE_SIZE g gridX gridY size = true ↔
      ∃ i, (0 ≤ i ∧ i < size) ∧
        ((((gridX > 0 ∧ operationalAt g (gridX - 1) (gridY + i) = true) ∨
          (gridY > 0 ∧ operationalAt g (gridX + i) (gridY - 1) = true)) ∨
          (gridX + size < (BASE_SIZE : Int) ∧
            operationalAt g (gridX + size) (gridY + i) = true)) ∨
          (gridY + size < (BASE_SIZE : Int) ∧
            operationalAt g (gridX + i) (gridY + size) = true)) := by
  unfold connectScan
  simp only [List.any_eq_true, mem_forRange, Bool.or_eq_true, Bool.and_eq_true,
    decide_eq_true_eq, zero_add]

/-- C2. `isPlaceable` returns false whenever some cell of the candidate
footprint `[gridX, gridX + size) x [gridY, gridY + size)` is occupied, for
every grid (so whatever is adjacent to the footprint), every hover cell and
every size. -/
theorem isPlaceable_false_of_occupied (BASE_SIZE : Nat) (v : BaseView)
    (rule : RuleBaseFacility)
    (hocc : ∃ x y, inFootprint v.gridX v.gridY rule.size x y ∧ v.facilities x y ≠ none) :
    v.isPlaceable BASE_SIZE rule = false := by
  obtain ⟨x, y, hfp, hne⟩ := hocc
  have hscan : occupiedScan BASE_SIZE v.facilities v.gridX v.gridY rule.size = true :=
    (occupiedScan_eq_true _ _ _ _ _).mpr ⟨x, y, hfp, Or.inr (Or.inr hne)⟩
  unfold BaseView.isPlaceable
  rw [if_pos hscan]

/-- Witness for C2: a 2x2 candidate at `(1, 1)` whose footprint contains the
occupied cell `(2, 2)` and which touches the operational facility at
`(0, 0)`. -/
theorem isPlaceable_false_of_occupied_witness :
    (∃ x y, inFootprint (twoFacilityView 1 1).gridX (twoFacilityView 1 1).gridY
        (ruleOfSize 2).size x y ∧ (twoFacilityView 1 1).facilities x y ≠ none) ∧
    (twoFacilityView 1 1).isPlaceable 6 (ruleOfSize 2) = false := by
  have hocc : ∃ x y, inFootprint (twoFacilityView 1 1).gridX (twoFacilityView 1 1).gridY
      (ruleOfSize 2).size x y ∧ (twoFacilityView 1 1).facilities x y ≠ none :=
    ⟨2, 2, by decide, by decide⟩
  exact ⟨hocc, isPlaceable_false_of_occupied 6 (twoFacilityView 1 1) (ruleOfSize 2) hocc⟩

theorem occupiedScan_eq_false (BASE_SIZE : Nat) (g : Grid) (gridX gridY size : Int)
    (hfit : ∀ x y, inFootprint gridX gridY size x y → onBoard BASE_SIZE x y)
    (hempty : ∀ x y, inFootprint gridX gridY size x y → g x y = none) :
    occupiedScan BASE_SIZE g gridX gridY size = false := by
  rw [← Bool.not_eq_true, occupiedScan_eq_true]
  rintro ⟨x, y, hfp, h⟩
  have hb := hfit x y hfp
  have he := hempty x y hfp
  unfold onBoard at hb
  rcases h with h | h | h
  · omega
  · omega
  · exact h he

/-- C3. `isPlaceable` returns true whenever the candidate footprint lies
entirely on the board, all its cells are empty, and at least one board cell
outside the footprint that shares an edge with a footprint cell holds an
operational facility (build time 0), whatever the other neighbouring cells
hold. -/
theorem isPlaceable_true_of_operational_neighbour (BASE_SIZE : Nat) (v : BaseView)
    (rule : RuleBaseFacility)
    (hfit : ∀ x y, inFootprint v.gridX v.gridY rule.size x y → onBoard BASE_SIZE x y)
    (hempty : ∀ x y, inFootprint v.gridX v.gridY rule.size x y → v.facilities x y = none)
    (hnb : ∃ x y, onBoard BASE_SIZE x y ∧ edgeNeighbour v.gridX v.gridY rule.size x y ∧
      ∃ f, v.facilities x y = some f ∧ f.buildTime = 0) :
    v.isPlaceable BASE_SIZE rule = true := by
  have hscan := occupiedScan_eq_false BASE_SIZE v.facilities v.gridX v.gridY rule.size
    hfit hempty
  unfold BaseView.isPlaceable
  rw [hscan]
  simp only [Bool.false_eq_true, if_false]
  obtain ⟨x, y, hb, ⟨hout, a, b, hab, hadj⟩, hop⟩ := hnb
  have hop2 : operationalAt v.facilities x y = true := (operationalAt_eq_true _ _ _).mpr hop
  have hbab := hfit a b hab
  rw [connectScan_eq_true]
  unfold inFootprint at hout hab
  unfold onBoard at hb hbab
  rcases hadj with ⟨hxa, hy | hy⟩ | ⟨hyb, hx | hx⟩
  · -- below the bottom row
    refine ⟨a - v.gridX, ⟨by omega, by omega⟩, Or.inr ⟨by omega, ?_⟩⟩
    have e1 : v.gridX + (a - v.gridX) = x := by omega
    have e2 : v.gridY + rule.size = y := by omega
    rw [e1, e2]
    exact hop2
  · -- above the top row
    refine ⟨a - v.gridX, ⟨by omega, by omega⟩, Or.inl (Or.inl (Or.inr ⟨by omega, ?_⟩))⟩
    have e1 : v.gridX + (a - v.gridX) = x := by omega
    have e2 : v.gridY - 1 = y := by omega
    rw [e1, e2]
    exact hop2
  · -- right of the right column
    refine ⟨b - v.gridY, ⟨by omega, by omega⟩, Or.inl (Or.inr ⟨by omega, ?_⟩)⟩
    have e1 : v.gridY + (b - v.gridY) = y := by omega
    have e2 : v.gridX + rule.size = x := by omega
    rw [e1, e2]
    exact hop2
  · -- left of the left column
    refine ⟨b - v.gridY, ⟨by omega, by omega⟩, Or.inl (Or.inl (Or.inl ⟨by omega, ?_⟩))⟩
    have e1 : v.gridY + (b - v.gridY) = y := by omega
    have e2 : v.gridX - 1 = x := by omega
    rw [e1, e2]
    exact hop2

/-- Witness for C3: a 1x1 candidate at `(2, 1)`, whose left neighbour
`(1, 1)` belongs to the operational facility at `(0, 0)` and whose bottom
neighbour `(2, 2)` is under construction. -/
theorem isPlaceable_true_of_operational_neighbour_witness :
    (∀ x y, inFootprint (twoFacilityView 2 1).gridX (twoFacilityView 2 1).gridY
        (ruleOfSize 1).size x y → onBoard 6 x y) ∧
    (∀ x y, inFootprint (twoFacilityView 2 1).gridX (twoFacilityView 2 1).gridY
        (ruleOfSize 1).size x y → (twoFacilityView 2 1).facilities x y = none) ∧
    (∃ x y, onBoard 6 x y ∧
      edgeNeighbour (twoFacilityView 2 1).gridX (twoFacilityView 2 1).gridY
        (ruleOfSize 1).size x y ∧
      ∃ f, (twoFacilityView 2 1).facilities x y = some f ∧ f.buildTime = 0) ∧
    (twoFacilityView 2 1).isPlaceable 6 (ruleOfSize 1) = true := by
  have hcell : ∀ x y, inFootprint (twoFacilityView 2 1).gridX (twoFacilityView 2 1).gridY
      (ruleOfSize 1).size x y → x = 2 ∧ y = 1 := by
    intro x y h
    simp only [inFootprint, twoFacilityView, ruleOfSize] at h
    omega
  have hfit : ∀ x y, inFootprint (twoFacilityView 2 1).gridX (twoFacilityView 2 1).gridY
      (ruleOfSize 1).size x y → onBoard 6 x y := by
    intro x y h
    obtain ⟨rfl, rfl⟩ := hcell x y h
    decide
  have hempty : ∀ x y, inFootprint (twoFacilityView 2 1).gridX (twoFacilityView 2 1).gridY
      (ruleOfSize 1).size x y → (twoFacilityView 2 1).facilities x y = none := by
    intro x y h
    obtain ⟨rfl, rfl⟩ := hcell x y h
    decide
  have hnb : ∃ x y, onBoard 6 x y ∧
      edgeNeighbour (twoFacilityView 2 1).gridX (twoFacilityView 2 1).gridY
        (ruleOfSize 1).size x y ∧
      ∃ f, (twoFacilityView 2 1).facilities x y = some f ∧ f.buildTime = 0 :=
    ⟨1, 1, by decide, ⟨by decide, 2, 1, by decide, by decide⟩,
      facilityAt 2 0 0 0, by decide, by decide⟩
  exact ⟨hfit, hempty, hnb,
    isPlaceable_true_of_operational_neighbour 6 (twoFacilityView 2 1) (ruleOfSize 1)
      hfit hempty hnb⟩

theorem connectScan_eq_false (BASE_SIZE : Nat) (g : Grid) (gridX gridY size : Int)
    (hfit : ∀ x y, inFootprint gridX gridY size x y → onBoard BASE_SIZE x y)
    (hnone : ∀ x y, onBoard BASE_SIZE x y → edgeNeighbour gridX gridY size x y →
      ∀ f, g x y = some f → f.buildTime ≠ 0) :
    connectScan BASE_SIZE g gridX gridY size = false := by
  rw [← Bool.not_eq_true, connectScan_eq_true]
  rintro ⟨i, ⟨hi0, hi1⟩, h⟩
  have hc1 := hfit gridX gridY (by unfold inFootprint; omega)
  have hc2 := hfit (gridX + size - 1) (gridY + size - 1) (by unfold inFootprint; omega)
  unfold onBoard at hc1 hc2
  have key : ∀ x y, onBoard BASE_SIZE x y → edgeNeighbour gridX gridY size x y →
      operationalAt g x y = true → False := by
    intro x y hb he hop
    obtain ⟨f, hf, hz⟩ := (operationalAt_eq_true _ _ _).mp hop
    exact hnone x y hb he f hf hz
  rcases h with ((⟨hg, hop⟩ | ⟨hg, hop⟩) | ⟨hg, hop⟩) | ⟨hg, hop⟩
  · refine key _ _ ?_ ⟨?_, gridX, gridY + i, ?_, ?_⟩ hop
    · unfold onBoard; omega
    · unfold inFootprint; omega
    · unfold inFootprint; omega
    · right; exact ⟨rfl, Or.inr rfl⟩
  · refine key _ _ ?_ ⟨?_, gridX + i, gridY, ?_, ?_⟩ hop
    · unfold onBoard; omega
    · unfold inFootprint; omega
    · unfold inFootprint; omega
    · left; exact ⟨rfl, Or.inr rfl⟩
  · refine key _ _ ?_ ⟨?_, gridX + size - 1, gridY + i, ?_, ?_⟩ hop
    · unfold onBoard; omega
    · unfold inFootprint; omega
    · unfold inFootprint; omega
    · right; exact ⟨rfl, Or.inl (by omega)⟩
  · refine key _ _ ?_ ⟨?_, gridX + i, gridY + size - 1, ?_, ?_⟩ hop
    · unfold onBoard; omega
    · unfold inFootprint; omega
    · unfold inFootprint; omega
    · left; exact ⟨rfl, Or.inl (by omega)⟩

/-- C4. For a candidate footprint that lies on the board, `isPlaceable`
returns false (a) whenever no board cell outside the footprint that shares an
edge with a footprint cell holds an operational facility, (b) in particular
whenever every facility in such a cell has build time greater than 0, and
(c) whenever the board holds no facility at all.  This holds whether or not
the footprint itself is empty. -/
theorem isPlaceable_false_of_no_operational_neighbour (BASE_SIZE : Nat) (v : BaseView)
    (rule : RuleBaseFacility)
    (hfit : ∀ x y, inFootprint v.gridX v.gridY rule.size x y → onBoard BASE_SIZE x y) :
    ((∀ x y, onBoard BASE_SIZE x y → edgeNeighbour v.gridX v.gridY rule.size x y →
        ∀ f, v.facilities x y = some f → f.buildTime ≠ 0) →
      v.isPlaceable BASE_SIZE rule = false) ∧
    ((∀ x y, onBoard BASE_SIZE x y → edgeNeighbour v.gridX v.gridY rule.size x y →
        ∀ f, v.facilities x y = some f → f.buildTime > 0) →
      v.isPlaceable BASE_SIZE rule = false) ∧
    ((∀ x y, onBoard BASE_SIZE x y → v.facilities x y = none) →
      v.isPlaceable BASE_SIZE rule = false) := by
  have main : (∀ x y, onBoard BASE_SIZE x y → edgeNeighbour v.gridX v.gridY rule.size x y →
      ∀ f, v.facilities x y = some f → f.buildTime ≠ 0) →
      v.isPlaceable BASE_SIZE rule = false := by
    intro hnone
    unfold BaseView.isPlaceable
    split
    · rfl
    · exact connectScan_eq_false BASE_SIZE v.facilities v.gridX v.gridY rule.size hfit hnone
  refine ⟨main, ?_, ?_⟩
  · intro hbuild
    apply main
    intro x y hb he f hf
    have := hbuild x y hb he f hf
    omega
  · intro hboard
    apply main
    intro x y hb _ f hf
    rw [hboard x y hb] at hf
    cases hf

/-- Witness for C4: a 1x1 candidate at `(3, 2)`, whose only occupied
neighbour `(2, 2)` is under construction. -/
theorem isPlaceable_false_of_no_operational_neighbour_witness :
    (∀ x y, inFootprint (twoFacilityView 3 2).gridX (twoFacilityView 3 2).gridY
        (ruleOfSize 1).size x y → onBoard 6 x y) ∧
    (∀ x y, onBoard 6 x y →
      edgeNeighbour (twoFacilityView 3 2).gridX (twoFacilityView 3 2).gridY
        (ruleOfSize 1).size x y →
      ∀ f, (twoFacilityView 3 2).facilities x y = some f → f.buildTime > 0) ∧
    (twoFacilityView 3 2).facilities 2 2 = some (facilityAt 1 2 2 3) ∧
    (twoFacilityView 3 2).isPlaceable 6 (ruleOfSize 1) = false := by
  have hfit : ∀ x y, inFootprint (twoFacilityView 3 2).gridX (twoFacilityView 3 2).gridY
      (ruleOfSize 1).size x y → onBoard 6 x y := by
    intro x y h
    simp only [inFootprint, twoFacilityView, ruleOfSize] at h
    unfold onBoard
    omega
  have hbuild : ∀ x y, onBoard 6 x y →
      edgeNeighbour (twoFacilityView 3 2).gridX (twoFacilityView 3 2).gridY
        (ruleOfSize 1).size x y →
      ∀ f, (twoFacilityView 3 2).facilities x y = some f → f.buildTime > 0 := by
    rintro x y - ⟨-, a, b, hab, hadj⟩ f hf
    simp only [inFootprint, twoFacilityView, ruleOfSize] at hab
    obtain ⟨rfl, rfl⟩ : a = 3 ∧ b = 2 := by omega
    rcases hadj with ⟨rfl, rfl | rfl⟩ | ⟨rfl, rfl | rfl⟩
    · have hn : (twoFacilityView 3 2).facilities 3 (2 + 1) = none := by decide
      rw [hn] at hf
      cases hf
    · have hn : (twoFacilityView 3 2).facilities 3 (2 - 1) = none := by decide
      rw [hn] at hf
      cases hf
    · have hn : (twoFacilityView 3 2).facilities (3 + 1) 2 = none := by decide
      rw [hn] at hf
      cases hf
    · have hf2 : (twoFacilityView 3 2).facilities 2 2 = some (facilityAt 1 2 2 3) := by
        decide
      have hf3 : (twoFacilityView 3 2).facilities (3 - 1) 2 = some f := hf
      have e : (3 : Int) - 1 = 2 := by decide
      rw [e, hf2] at hf3
      cases hf3
      decide
  exact ⟨hfit, hbuild, by decide,
    (isPlaceable_false_of_no_operational_neighbour 6 (twoFacilityView 3 2) (ruleOfSize 1)
      hfit).2.1 hbuild⟩

/-- C5, evaluation at the failing input.  On a 6x6 board with one operational
1x1 facility at `(0, 4)` and the pointer over the bottom-left cell `(0, 5)`,
a 2x2 candidate has its bottom row at `y = 6`, off the board.  The test
`y > BASE_SIZE` lets `y = 6` through, the cells `(0, 6)` and `(1, 6)` are read
past the end of their columns, and as those reads find null the validator
goes on to accept the candidate because of the facility above it. -/
theorem isPlaceable_accepts_off_board_footprint :
    edgeView.gridX = 0 ∧ edgeView.gridY = 5 ∧
    inFootprint edgeView.gridX edgeView.gridY (ruleOfSize 2).size 0 6 ∧
    ¬ onBoard 6 0 6 ∧
    edgeView.isPlaceable 6 (ruleOfSize 2) = true := by
  refine ⟨by decide, by decide, by decide, by decide, by decide⟩

/-- C6. On a 6x6 board whose grid is rebuilt from a single operational 1x1
facility at `(2, 2)`: a 1x1 candidate at hover cell `(2, 1)` is placeable, a
1x1 candidate at `(0, 0)` is not, and a 2x2 candidate at `(1, 1)`, whose
footprint covers `(2, 2)`, is not. -/
theorem isPlaceable_scenario :
    (scenarioView 2 1).isPlaceable 6 (ruleOfSize 1) = true ∧
    (scenarioView 0 0).isPlaceable 6 (ruleOfSize 1) = false ∧
    (scenarioView 1 1).isPlaceable 6 (ruleOfSize 2) = false := by
  refine ⟨by decide, by decide, by decide⟩

/-! ## Pointer mapper -/

theorem floorQuot_eq_fdiv (a b : Int) (hb : 0 < b) : floorQuot a b = Int.fdiv a b := by
  unfold floorQuot
  rw [Int.fdiv_eq_ediv a (le_of_lt hb)]
  obtain ⟨n, rfl⟩ := Int.eq_ofNat_of_zero_le (le_of_lt hb)
  exact_mod_cast Rat.floor_intCast_div_natCast a n

theorem mouseOver_gridX (BASE_SIZE : Nat) (v : BaseView) (ev : MouseEvent) (scale : Int) :
    (v.mouseOver BASE_SIZE ev scale).gridX = gridCoord ev.x v.x scale := by
  unfold BaseView.mouseOver
  simp only
  split <;> rfl

theorem mouseOver_gridY (BASE_SIZE : Nat) (v : BaseView) (ev : MouseEvent) (scale : Int) :
    (v.mouseOver BASE_SIZE ev scale).gridY = gridCoord ev.y v.y scale := by
  unfold BaseView.mouseOver
  simp only
  split <;> rfl

theorem cell_width_pos (scale : Int) (hs : 1 ≤ scale) : 0 < GRID_SIZE * scale := by
  unfold GRID_SIZE
  omega

theorem gridCoord_eq_ediv (p : Nat) (origin scale : Int) (hs : 1 ≤ scale) :
    gridCoord p origin scale = ((p : Int) - origin * scale) / (GRID_SIZE * scale) := by
  unfold gridCoord
  exact Int.fdiv_eq_ediv _ (le_of_lt (cell_width_pos scale hs))

/-- C7, counterexample.  For a view at `x = 192`, scale 2 and the pointer at
pixel `x = 400`, subtracting the unscaled origin gives
`floor((400 - 192) / 64) = 3`, while `mouseOver` computes cell 0. -/
theorem mouseOver_unscaled_origin_differs :
    (offsetView.mouseOver 6 ⟨400, 16⟩ 2).gridX = 0 ∧
    floorQuot (400 - offsetView.x) (32 * 2) = 3 ∧
    (offsetView.mouseOver 6 ⟨400, 16⟩ 2).gridX ≠ floorQuot (400 - offsetView.x) (32 * 2) := by
  have h1 : (offsetView.mouseOver 6 ⟨400, 16⟩ 2).gridX = 0 := by decide
  have h2 : floorQuot (400 - offsetView.x) (32 * 2) = 3 := by
    rw [floorQuot_eq_fdiv _ _ (by decide)]
    decide
  refine ⟨h1, h2, ?_⟩
  rw [h1, h2]
  decide

/-- C7, amended.  For every pointer position, view position `(_x, _y)` and
scale `s ≥ 1`, the hover cell computed by `mouseOver` is
`gridX = floor((px - _x * s) / (32 * s))` and
`gridY = floor((py - _y * s) / (32 * s))`: the view origin is multiplied by the
scale before it is subtracted. -/
theorem mouseOver_maps_pointer (BASE_SIZE : Nat) (v : BaseView) (ev : MouseEvent)
    (s : Int) (hs : 1 ≤ s) :
    (v.mouseOver BASE_SIZE ev s).gridX = floorQuot ((ev.x : Int) - v.x * s) (32 * s) ∧
    (v.mouseOver BASE_SIZE ev s).gridY = floorQuot ((ev.y : Int) - v.y * s) (32 * s) := by
  have hpos : (0 : Int) < 32 * s := by omega
  rw [mouseOver_gridX, mouseOver_gridY, floorQuot_eq_fdiv _ _ hpos,
    floorQuot_eq_fdiv _ _ hpos]
  exact ⟨rfl, rfl⟩

/-- Witness for C7: pointer `(96, 96)`, view origin `(0, 0)`, scale 1 gives
cell `(3, 3)`. -/
theorem mouseOver_maps_pointer_witness :
    (1 : Int) ≤ 1 ∧
    ((freshView 6).mouseOver 6 ⟨96, 96⟩ 1).gridX = floorQuot ((96 : Int) - 0 * 1) (32 * 1) ∧
    ((freshView 6).mouseOver 6 ⟨96, 96⟩ 1).gridY = floorQuot ((96 : Int) - 0 * 1) (32 * 1) ∧
    ((freshView 6).mouseOver 6 ⟨96, 96⟩ 1).gridX = 3 ∧
    ((freshView 6).mouseOver 6 ⟨96, 96⟩ 1).gridY = 3 := by
  have h := mouseOver_maps_pointer 6 (freshView 6) ⟨96, 96⟩ 1 (by decide)
  exact ⟨by decide, h.1, h.2, by decide, by decide⟩

theorem gridCoord_shift (p : Nat) (origin : Int) (s : Nat) (hs : 1 ≤ s) :
    gridCoord (p + 32 * s) origin s = gridCoord p origin s + 1 := by
  have hs1 : (1 : Int) ≤ (s : Int) := by exact_mod_cast hs
  have hne : GRID_SIZE * (s : Int) ≠ 0 := ne_of_gt (cell_width_pos _ hs1)
  rw [gridCoord_eq_ediv _ _ _ hs1, gridCoord_eq_ediv _ _ _ hs1]
  have e : (((p + 32 * s : Nat) : Int) - origin * (s : Int))
      = ((p : Int) - origin * (s : Int)) + 1 * (GRID_SIZE * (s : Int)) := by
    unfold GRID_SIZE
    push_cast
    ring
  rw [e, Int.add_mul_ediv_right _ _ hne]

theorem gridCoord_mono (p q : Nat) (origin scale : Int) (hs : 1 ≤ scale) (hpq : p ≤ q) :
    gridCoord p origin scale ≤ gridCoord q origin scale := by
  rw [gridCoord_eq_ediv _ _ _ hs, gridCoord_eq_ediv _ _ _ hs]
  apply Int.ediv_le_ediv (cell_width_pos scale hs)
  have : (p : Int) ≤ (q : Int) := by exact_mod_cast hpq
  omega

theorem gridCoord_neg (p : Nat) (origin scale : Int) (hs : 1 ≤ scale)
    (h : (p : Int) < origin ∨ (p : Int) < origin * scale) :
    gridCoord p origin scale < 0 := by
  have hlt : (p : Int) < origin * scale := by
    rcases h with h | h
    · have hp : (0 : Int) ≤ (p : Int) := Int.ofNat_nonneg p
      have ho : 0 < origin := by omega
      have hmul : origin * 1 ≤ origin * scale := Int.mul_le_mul_of_nonneg_left hs (le_of_lt ho)
      omega
    · exact h
  rw [gridCoord_eq_ediv _ _ _ hs]
  exact Int.ediv_neg' (by omega) (cell_width_pos scale hs)

/-- C8. For every pointer position, view origin and scale `s ≥ 1`, moving the
pointer right by one cell width (`32 * s` pixels) increases the grid X computed
by `mouseOver` by exactly one, moving it down by one cell width increases the
grid Y by exactly one, and each grid index is non-decreasing in its pointer
coordinate. -/
theorem mouseOver_shift_monotone (BASE_SIZE : Nat) (v : BaseView) (px py : Nat)
    (s : Nat) (hs : 1 ≤ s) :
    (v.mouseOver BASE_SIZE ⟨px + 32 * s, py⟩ s).gridX
        = (v.mouseOver BASE_SIZE ⟨px, py⟩ s).gridX + 1 ∧
    (v.mouseOver BASE_SIZE ⟨px, py + 32 * s⟩ s).gridY
        = (v.mouseOver BASE_SIZE ⟨px, py⟩ s).gridY + 1 ∧
    (∀ qx, px ≤ qx →
      (v.mouseOver BASE_SIZE ⟨px, py⟩ s).gridX ≤ (v.mouseOver BASE_SIZE ⟨qx, py⟩ s).gridX) ∧
    (∀ qy, py ≤ qy →
      (v.mouseOver BASE_SIZE ⟨px, py⟩ s).gridY ≤ (v.mouseOver BASE_SIZE ⟨px, qy⟩ s).gridY) := by
  have hs1 : (1 : Int) ≤ (s : Int) := by exact_mod_cast hs
  simp only [mouseOver_gridX, mouseOver_gridY]
  exact ⟨gridCoord_shift px v.x s hs, gridCoord_shift py v.y s hs,
    fun qx h => gridCoord_mono px qx v.x s hs1 h,
    fun qy h => gridCoord_mono py qy v.y s hs1 h⟩

/-- Witness for C8: the view at `(192, 8)`, scale 2, pointer `(400, 16)`. -/
theorem mouseOver_shift_monotone_witness :
    1 ≤ 2 ∧
    (offsetView.mouseOver 6 ⟨400 + 32 * 2, 16⟩ (2 : Nat)).gridX
        = (offsetView.mouseOver 6 ⟨400, 16⟩ (2 : Nat)).gridX + 1 ∧
    (offsetView.mouseOver 6 ⟨400, 16⟩ (2 : Nat)).gridX
        ≤ (offsetView.mouseOver 6 ⟨401, 16⟩ (2 : Nat)).gridX := by
  have h := mouseOver_shift_monotone 6 offsetView 400 16 2 (by decide)
  exact ⟨by decide, h.1, h.2.2.1 401 (by decide)⟩

/-- C9. For every scale `s ≥ 1`, a pointer coordinate lying before the view
origin on an axis (before the view position, or before the view position times
the scale, which is where the view starts on screen) is mapped by `mouseOver`
to a strictly negative grid index on that axis, so never to cell 0, and the
hover cell is treated as out of range: no facility is selected. -/
theorem mouseOver_before_origin_negative (BASE_SIZE : Nat) (v : BaseView)
    (ev : MouseEvent) (s : Int) (hs : 1 ≤ s) :
    (((ev.x : Int) < v.x ∨ (ev.x : Int) < v.x * s) →
      (v.mouseOver BASE_SIZE ev s).gridX < 0 ∧
      (v.mouseOver BASE_SIZE ev s).getSelectedFacility = none) ∧
    (((ev.y : Int) < v.y ∨ (ev.y : Int) < v.y * s) →
      (v.mouseOver BASE_SIZE ev s).gridY < 0 ∧
      (v.mouseOver BASE_SIZE ev s).getSelectedFacility = none) := by
  constructor
  · intro h
    have hneg := gridCoord_neg ev.x v.x s hs h
    refine ⟨by rw [mouseOver_gridX]; exact hneg, ?_⟩
    unfold BaseView.mouseOver BaseView.getSelectedFacility
    simp only
    rw [if_neg (fun hc => absurd hc.1 (by omega))]
  · intro h
    have hneg := gridCoord_neg ev.y v.y s hs h
    refine ⟨by rw [mouseOver_gridY]; exact hneg, ?_⟩
    unfold BaseView.mouseOver BaseView.getSelectedFacility
    simp only
    rw [if_neg (fun hc => absurd hc.2.2.1 (by omega))]

/-- Witness for C9: the view at `(192, 8)`, scale 2, pointer `(383, 16)`, one
pixel left of the view's first screen column. -/
theorem mouseOver_before_origin_negative_witness :
    (1 : Int) ≤ 2 ∧ ((383 : Nat) : Int) < offsetView.x * 2 ∧
    (offsetView.mouseOver 6 ⟨383, 16⟩ 2).gridX < 0 ∧
    (offsetView.mouseOver 6 ⟨383, 16⟩ 2).getSelectedFacility = none ∧
    (offsetView.mouseOver 6 ⟨383, 16⟩ 2).gridX = -1 := by
  have hlt : ((383 : Nat) : Int) < offsetView.x * 2 := by decide
  have h := (mouseOver_before_origin_negative 6 offsetView ⟨383, 16⟩ 2 (by decide)).1
    (Or.inr hlt)
  exact ⟨by decide, hlt, h.1, h.2, by decide⟩

/-- C10. After `mouseOver`: if the mapped cell is on the board the selected
facility is the grid occupant of that cell (none if the cell is empty);
otherwise the selected facility is none and, when selection is enabled, the
overlay is hidden.  The grid itself is unchanged, and it is read only at the
mapped cell and only when that cell is on the board: a view whose grid agrees
there ends in the same selection state. -/
theorem mouseOver_selects_occupant (BASE_SIZE : Nat) (v : BaseView) (ev : MouseEvent)
    (s : Int) :
    (onBoard BASE_SIZE (v.mouseOver BASE_SIZE ev s).gridX (v.mouseOver BASE_SIZE ev s).gridY →
      (v.mouseOver BASE_SIZE ev s).getSelectedFacility
        = v.facilities (v.mouseOver BASE_SIZE ev s).gridX (v.mouseOver BASE_SIZE ev s).gridY) ∧
    (¬ onBoard BASE_SIZE (v.mouseOver BASE_SIZE ev s).gridX
        (v.mouseOver BASE_SIZE ev s).gridY →
      (v.mouseOver BASE_SIZE ev s).getSelectedFacility = none ∧
      (v.selSize > 0 → (v.mouseOver BASE_SIZE ev s).selector.isVisible = false)) ∧
    (v.mouseOver BASE_SIZE ev s).facilities = v.facilities ∧
    (∀ g : Grid,
      (onBoard BASE_SIZE (v.mouseOver BASE_SIZE ev s).gridX
          (v.mouseOver BASE_SIZE ev s).gridY →
        g (v.mouseOver BASE_SIZE ev s).gridX (v.mouseOver BASE_SIZE ev s).gridY
          = v.facilities (v.mouseOver BASE_SIZE ev s).gridX
              (v.mouseOver BASE_SIZE ev s).gridY) →
      BaseView.mouseOver BASE_SIZE { v with facilities := g } ev s
        = { v.mouseOver BASE_SIZE ev s with facilities := g }) := by
  rw [mouseOver_gridX, mouseOver_gridY]
  unfold BaseView.mouseOver BaseView.getSelectedFacility onBoard
  simp only
  by_cases hc : gridCoord ev.x v.x s ≥ 0 ∧ gridCoord ev.x v.x s < (BASE_SIZE : Int) ∧
      gridCoord ev.y v.y s ≥ 0 ∧ gridCoord ev.y v.y s < (BASE_SIZE : Int)
  · simp only [if_pos hc]
    refine ⟨?_, ?_, ?_, ?_⟩
    · intro _
      trivial
    · intro hn
      exact absurd hc hn
    · trivial
    · intro g hg
      rw [hg hc]
  · simp only [if_neg hc]
    refine ⟨?_, ?_, ?_, ?_⟩
    · intro hb
      exact absurd hb hc
    · intro _
      refine ⟨trivial, ?_⟩
      intro hsel
      simp only [if_pos hsel]
      cases v.selector <;> rfl
    · trivial
    · intro g _
      trivial

/-! ## Selection overlay -/

theorem selectorReady_init (BASE_SIZE : Nat) (x y : Int) (raw : Grid) :
    selectorReady (BaseView.init BASE_SIZE x y raw) := by
  intro h
  have h2 : (0 : Int) > 0 := h
  omega

theorem selectorReady_step (BASE_SIZE : Nat) (v : BaseView) (op : ViewOp)
    (h : selectorReady v) : selectorReady (v.step BASE_SIZE op) := by
  intro hk
  cases op with
  | setBase base => exact h hk
  | setSelectable size =>
    have hs : size > 0 := hk
    unfold BaseView.step BaseView.setSelectable
    simp only [if_pos hs]
    exact ⟨_, rfl⟩
  | mouseOver ev scale =>
    have hk2 : v.selSize > 0 := by
      unfold BaseView.step BaseView.mouseOver at hk
      simp only at hk
      split at hk <;> exact hk
    obtain ⟨sel, hsel⟩ := h hk2
    unfold BaseView.step BaseView.mouseOver
    simp only [hsel, if_pos hk2, SelectorPtr.setXY, SelectorPtr.setVisible]
    split
    · split
      · exact ⟨_, rfl⟩
      · exact ⟨_, rfl⟩
    · exact ⟨_, rfl⟩
  | mouseOut =>
    have hk2 : v.selSize > 0 := hk
    obtain ⟨sel, hsel⟩ := h hk2
    unfold BaseView.step BaseView.mouseOut
    simp only [hsel, if_pos hk2, SelectorPtr.setVisible]
    exact ⟨_, rfl⟩
  | blink =>
    have hk2 : v.selSize > 0 := hk
    obtain ⟨sel, hsel⟩ := h hk2
    unfold BaseView.step BaseView.blinkStep
    simp only [hsel, if_pos hk2, SelectorPtr.paint]
    exact ⟨_, rfl⟩
  | think elapsed =>
    have hk2 : v.selSize > 0 := by
      unfold BaseView.step BaseView.think at hk
      simp only at hk
      split at hk <;> exact hk
    obtain ⟨sel, hsel⟩ := h hk2
    unfold BaseView.step BaseView.think BaseView.blinkStep
    simp only [hsel, if_pos hk2, SelectorPtr.paint]
    split
    · exact ⟨_, rfl⟩
    · exact ⟨_, rfl⟩

theorem selectorReady_run (BASE_SIZE : Nat) (ops : List ViewOp) (v : BaseView)
    (h : selectorReady v) : selectorReady (v.run BASE_SIZE ops) := by
  induction ops generalizing v with
  | nil => exact h
  | cons op ops ih => exact ih _ (selectorReady_step BASE_SIZE v op h)

/-- C11. With selection size `k > 0` and the selector surface that
`setSelectable` created, after `mouseOver` the overlay is visible if and only
if the hover cell is on the board and the `k x k` footprint from that cell
fits (`gridX + k ≤ N` and `gridY + k ≤ N`); when visible it is positioned at
`(_x + gridX * 32, _y + gridY * 32)`. -/
theorem mouseOver_overlay_visibility (BASE_SIZE : Nat) (v : BaseView) (ev : MouseEvent)
    (s : Int) (sel : Selector) (hk : v.selSize > 0) (hlive : v.selector = .live sel) :
    ((v.mouseOver BASE_SIZE ev s).selector.isVisible = true ↔
      onBoard BASE_SIZE (v.mouseOver BASE_SIZE ev s).gridX
          (v.mouseOver BASE_SIZE ev s).gridY ∧
        (v.mouseOver BASE_SIZE ev s).gridX + v.selSize ≤ (BASE_SIZE : Int) ∧
        (v.mouseOver BASE_SIZE ev s).gridY + v.selSize ≤ (BASE_SIZE : Int)) ∧
    ((v.mouseOver BASE_SIZE ev s).selector.isVisible = true →
      (v.mouseOver BASE_SIZE ev s).selector.position
        = some (v.x + (v.mouseOver BASE_SIZE ev s).gridX * 32,
            v.y + (v.mouseOver BASE_SIZE ev s).gridY * 32)) := by
  rw [mouseOver_gridX, mouseOver_gridY]
  unfold BaseView.mouseOver onBoard
  simp only
  by_cases hc : gridCoord ev.x v.x s ≥ 0 ∧ gridCoord ev.x v.x s < (BASE_SIZE : Int) ∧
      gridCoord ev.y v.y s ≥ 0 ∧ gridCoord ev.y v.y s < (BASE_SIZE : Int)
  · by_cases hf : gridCoord ev.x v.x s + v.selSize - 1 < (BASE_SIZE : Int) ∧
        gridCoord ev.y v.y s + v.selSize - 1 < (BASE_SIZE : Int)
    · simp only [if_pos hc, if_pos hk, if_pos hf, hlive, SelectorPtr.setXY,
        SelectorPtr.setVisible, SelectorPtr.isVisible, SelectorPtr.position, GRID_SIZE]
      refine ⟨⟨fun _ => ⟨?_, ?_, ?_⟩, fun _ => trivial⟩, fun _ => trivial⟩
      · exact ⟨hc.1, hc.2.1, hc.2.2.1, hc.2.2.2⟩
      · omega
      · omega
    · simp only [if_pos hc, if_pos hk, if_neg hf, hlive, SelectorPtr.setVisible,
        SelectorPtr.isVisible]
      refine ⟨⟨fun h => absurd h (by decide), fun h => ?_⟩, fun h => absurd h (by decide)⟩
      exact absurd ⟨by omega, by omega⟩ hf
  · simp only [if_neg hc, if_pos hk, hlive, SelectorPtr.setVisible, SelectorPtr.isVisible]
    refine ⟨⟨fun h => absurd h (by decide), fun h => ?_⟩, fun h => absurd h (by decide)⟩
    exact absurd ⟨h.1.1, h.1.2.1, h.1.2.2.1, h.1.2.2.2⟩ hc

/-- Witness for C11: the view at `(192, 8)` with a 2x2 selection.  Over cell
`(3, 2)` the overlay shows at `(288, 72)`; over cell `(5, 2)` the footprint
does not fit and the overlay is hidden. -/
theorem mouseOver_overlay_visibility_witness :
    selectingView.selSize > 0 ∧
    (selectingView.mouseOver 6 ⟨293, 75⟩ 1).selector.isVisible = true ∧
    (selectingView.mouseOver 6 ⟨293, 75⟩ 1).selector.position = some (288, 72) ∧
    (selectingView.mouseOver 6 ⟨357, 75⟩ 1).selector.isVisible = false := by
  have hk : selectingView.selSize > 0 := by decide
  have h := mouseOver_overlay_visibility 6 selectingView ⟨293, 75⟩ 1 _ hk rfl
  have hv : (selectingView.mouseOver 6 ⟨293, 75⟩ 1).selector.isVisible = true :=
    h.1.mpr ⟨by decide, by decide, by decide⟩
  have h2 := mouseOver_overlay_visibility 6 selectingView ⟨357, 75⟩ 1 _ hk rfl
  refine ⟨hk, hv, (h.2 hv).trans (by decide), ?_⟩
  rw [← Bool.not_eq_true]
  intro hvis
  have hfit := (h2.1.mp hvis).2.1
  exact absurd hfit (by decide)

/-! ## Grid invariant -/

theorem fillGrid_some (fs : List BaseFacility) (g : Grid) (x y : Int) (f : BaseFacility)
    (h : fillGrid fs g x y = some f) : (f ∈ fs ∧ f.covers x y) ∨ g x y = some f := by
  induction fs generalizing g with
  | nil => exact Or.inr h
  | cons f0 fs ih =>
    have h1 : fillGrid fs (placeFacility g f0) x y = some f := h
    rcases ih _ h1 with ⟨hm, hc⟩ | hp
    · exact Or.inl ⟨List.mem_cons_of_mem _ hm, hc⟩
    · rw [placeFacility_apply] at hp
      by_cases hc : f0.covers x y
      · rw [if_pos hc] at hp
        cases hp
        exact Or.inl ⟨List.mem_cons_self _ _, hc⟩
      · rw [if_neg hc] at hp
        exact Or.inr hp

theorem step_keeps_grid (BASE_SIZE : Nat) (v : BaseView) (op : ViewOp)
    (h : op.keepsBase) :
    (v.step BASE_SIZE op).facilities = v.facilities ∧ (v.step BASE_SIZE op).base = v.base := by
  cases op with
  | setBase base => exact absurd h (by simp [ViewOp.keepsBase])
  | setSelectable size => exact ⟨rfl, rfl⟩
  | mouseOver ev scale =>
    unfold BaseView.step BaseView.mouseOver
    simp only
    split <;> exact ⟨rfl, rfl⟩
  | mouseOut => exact ⟨rfl, rfl⟩
  | blink => exact ⟨rfl, rfl⟩
  | think elapsed =>
    unfold BaseView.step BaseView.think
    simp only
    split <;> exact ⟨rfl, rfl⟩

/-- The invariant of the grid, with the memory around the array: every
occupied board cell holds a facility of the bound base that covers it, and
everything off the board is as it was before the view was constructed. -/
theorem step_keeps_invariant (BASE_SIZE : Nat) (raw : Grid) (v : BaseView) (op : ViewOp)
    (hop : op.fitsBoard BASE_SIZE)
    (hinv : ∀ x y, onBoard BASE_SIZE x y → ∀ f, v.facilities x y = some f →
      f.covers x y ∧ ∃ b, v.base = some b ∧ f ∈ b.facilities)
    (hoff : ∀ x y, ¬ onBoard BASE_SIZE x y → v.facilities x y = raw x y) :
    (∀ x y, onBoard BASE_SIZE x y → ∀ f, (v.step BASE_SIZE op).facilities x y = some f →
      f.covers x y ∧ ∃ b, (v.step BASE_SIZE op).base = some b ∧ f ∈ b.facilities) ∧
    (∀ x y, ¬ onBoard BASE_SIZE x y → (v.step BASE_SIZE op).facilities x y = raw x y) := by
  by_cases hk : op.keepsBase
  · obtain ⟨hg, hb⟩ := step_keeps_grid BASE_SIZE v op hk
    rw [hg, hb]
    exact ⟨hinv, hoff⟩
  · cases op with
    | setBase base =>
      have hfit : base.fitsBoard BASE_SIZE := hop
      constructor
      · intro x y hb f hf
        have hf2 : fillGrid base.facilities (clearGrid BASE_SIZE v.facilities) x y = some f :=
          hf
        rcases fillGrid_some _ _ _ _ _ hf2 with ⟨hm, hc⟩ | hcl
        · exact ⟨hc, base, rfl, hm⟩
        · rw [clearGrid_apply, if_pos hb] at hcl
          cases hcl
      · intro x y hb
        have hun : ∀ f ∈ base.facilities, ¬ f.covers x y :=
          fun f hm hc => hb (hfit f hm x y hc)
        show fillGrid base.facilities (clearGrid BASE_SIZE v.facilities) x y = raw x y
        rw [fillGrid_uncovered _ _ _ _ hun, clearGrid_apply, if_neg hb]
        exact hoff x y hb
    | setSelectable size => exact absurd trivial hk
    | mouseOver ev scale => exact absurd trivial hk
    | mouseOut => exact absurd trivial hk
    | blink => exact absurd trivial hk
    | think elapsed => exact absurd trivial hk

theorem run_keeps_invariant (BASE_SIZE : Nat) (raw : Grid) (ops : List ViewOp)
    (v : BaseView) (hops : ∀ op ∈ ops, op.fitsBoard BASE_SIZE)
    (hinv : ∀ x y, onBoard BASE_SIZE x y → ∀ f, v.facilities x y = some f →
      f.covers x y ∧ ∃ b, v.base = some b ∧ f ∈ b.facilities)
    (hoff : ∀ x y, ¬ onBoard BASE_SIZE x y → v.facilities x y = raw x y) :
    (∀ x y, onBoard BASE_SIZE x y → ∀ f, (v.run BASE_SIZE ops).facilities x y = some f →
      f.covers x y ∧ ∃ b, (v.run BASE_SIZE ops).base = some b ∧ f ∈ b.facilities) ∧
    (∀ x y, ¬ onBoard BASE_SIZE x y → (v.run BASE_SIZE ops).facilities x y = raw x y) := by
  induction ops generalizing v with
  | nil => exact ⟨hinv, hoff⟩
  | cons op ops ih =>
    have hstep := step_keeps_invariant BASE_SIZE raw v op
      (hops op (List.mem_cons_self _ _)) hinv hoff
    exact ih (v.step BASE_SIZE op) (fun o ho => hops o (List.mem_cons_of_mem _ ho))
      hstep.1 hstep.2

/-- C12. Grid invariant: in every state reached from construction by any
sequence of `setBase` (with facility lists on the board, overlapping or not),
`setSelectable`, `mouseOver`, `mouseOut`, `blink` and `think`, every occupied
board cell `(x, y)` holds a facility `f` of the bound base with
`f.x ≤ x < f.x + f.size` and `f.y ≤ y < f.y + f.size`, and nothing off the
board has been written.  The board is all empty after construction, and every
operation other than `setBase` leaves the grid and the bound base as they
are. -/
theorem grid_invariant_reachable (BASE_SIZE : Nat) (x0 y0 : Int) (raw : Grid)
    (ops : List ViewOp) (hops : ∀ op ∈ ops, op.fitsBoard BASE_SIZE) :
    (∀ x y, onBoard BASE_SIZE x y → ∀ f,
      ((BaseView.init BASE_SIZE x0 y0 raw).run BASE_SIZE ops).facilities x y = some f →
      f.covers x y ∧
        ∃ b, ((BaseView.init BASE_SIZE x0 y0 raw).run BASE_SIZE ops).base = some b ∧
          f ∈ b.facilities) ∧
    (∀ x y, ¬ onBoard BASE_SIZE x y →
      ((BaseView.init BASE_SIZE x0 y0 raw).run BASE_SIZE ops).facilities x y = raw x y) ∧
    (∀ x y, onBoard BASE_SIZE x y → (BaseView.init BASE_SIZE x0 y0 raw).facilities x y = none) ∧
    (∀ (v : BaseView) (op : ViewOp), op.keepsBase →
      (v.step BASE_SIZE op).facilities = v.facilities ∧
        (v.step BASE_SIZE op).base = v.base) := by
  have hempty : ∀ x y, onBoard BASE_SIZE x y →
      (BaseView.init BASE_SIZE x0 y0 raw).facilities x y = none := by
    intro x y hb
    show clearGrid BASE_SIZE raw x y = none
    rw [clearGrid_apply, if_pos hb]
  have hoff : ∀ x y, ¬ onBoard BASE_SIZE x y →
      (BaseView.init BASE_SIZE x0 y0 raw).facilities x y = raw x y := by
    intro x y hb
    show clearGrid BASE_SIZE raw x y = raw x y
    rw [clearGrid_apply, if_neg hb]
  have hinv : ∀ x y, onBoard BASE_SIZE x y → ∀ f,
      (BaseView.init BASE_SIZE x0 y0 raw).facilities x y = some f →
      f.covers x y ∧ ∃ b, (BaseView.init BASE_SIZE x0 y0 raw).base = some b ∧
        f ∈ b.facilities := by
    intro x y hb f hf
    rw [hempty x y hb] at hf
    cases hf
  have hrun := run_keeps_invariant BASE_SIZE raw ops _ hops hinv hoff
  exact ⟨hrun.1, hrun.2, hempty, fun v op hk => step_keeps_grid BASE_SIZE v op hk⟩

/-- Witness for C12: the session `sessionOps`, whose second base has two
overlapping facilities; cell `(1, 1)` ends up holding the later one. -/
theorem grid_invariant_reachable_witness :
    (∀ op ∈ sessionOps, op.fitsBoard 6) ∧
    ((BaseView.init 6 0 0 emptyGrid).run 6 sessionOps).facilities 1 1
      = some (facilityAt 2 1 1 5) ∧
    ((facilityAt 2 1 1 5).covers 1 1 ∧
      ∃ b, ((BaseView.init 6 0 0 emptyGrid).run 6 sessionOps).base = some b ∧
        facilityAt 2 1 1 5 ∈ b.facilities) := by
  have hops : ∀ op ∈ sessionOps, op.fitsBoard 6 := by
    intro op hop
    simp only [sessionOps, List.mem_cons, List.mem_singleton, List.not_mem_nil,
      or_false] at hop
    rcases hop with rfl | rfl | rfl | rfl | rfl | rfl
    · trivial
    · intro f hf x y hc
      simp only [twoFacilityBase, List.mem_cons, List.mem_singleton, List.not_mem_nil,
        or_false] at hf
      rcases hf with rfl | rfl <;>
        simp only [BaseFacility.covers, facilityAt, ruleOfSize] at hc <;>
        simp only [onBoard] <;> omega
    · trivial
    · trivial
    · intro f hf x y hc
      simp only [List.mem_cons, List.mem_singleton, List.not_mem_nil, or_false] at hf
      rcases hf with rfl | rfl <;>
        simp only [BaseFacility.covers, facilityAt, ruleOfSize] at hc <;>
        simp only [onBoard] <;> omega
    · trivial
  have hcell : ((BaseView.init 6 0 0 emptyGrid).run 6 sessionOps).facilities 1 1
      = some (facilityAt 2 1 1 5) := by decide
  exact ⟨hops, hcell,
    (grid_invariant_reachable 6 0 0 emptyGrid sessionOps hops).1 1 1 (by decide) _ hcell⟩

/-! ## Blink -/

theorem timerRunning_step (BASE_SIZE : Nat) (v : BaseView) (op : ViewOp)
    (h : timerRunning v) : timerRunning (v.step BASE_SIZE op) := by
  obtain ⟨hi, hr⟩ := h
  cases op with
  | setBase base => exact ⟨hi, hr⟩
  | setSelectable size => exact ⟨hi, hr⟩
  | mouseOver ev scale =>
    unfold BaseView.step BaseView.mouseOver timerRunning
    simp only
    split <;> exact ⟨hi, hr⟩
  | mouseOut => exact ⟨hi, hr⟩
  | blink => exact ⟨hi, hr⟩
  | think elapsed =>
    unfold BaseView.step BaseView.think BaseView.blinkStep Timer.tick timerRunning
    by_cases hfire : v.timer.remaining ≤ elapsed
    · simp only [if_pos hfire, if_true]
      exact ⟨hi, hi⟩
    · simp only [if_neg hfire, Bool.false_eq_true, if_false]
      exact ⟨hi, by omega⟩

theorem timerRunning_run (BASE_SIZE : Nat) (ops : List ViewOp) (v : BaseView)
    (h : timerRunning v) : timerRunning (v.run BASE_SIZE ops) := by
  induction ops generalizing v with
  | nil => exact h
  | cons op ops ih => exact ih _ (timerRunning_step BASE_SIZE v op h)

theorem think_zero (v : BaseView) (h : timerRunning v) : v.think 0 = v := by
  have hr : ¬ v.timer.remaining ≤ 0 := by
    have := h.2
    omega
  unfold BaseView.think Timer.tick
  simp only [if_neg hr, Bool.false_eq_true, if_false, Nat.sub_zero]

theorem think_zero_iterate (v : BaseView) (h : timerRunning v) (n : Nat) :
    (fun w : BaseView => w.think 0)^[n] v = v := by
  induction n with
  | zero => rfl
  | succ n ih => rw [Function.iterate_succ_apply', ih, think_zero v h]

/-- C13. Each firing of the timer callback `BaseView::blink` negates the
blink flag exactly once, so two consecutive firings restore it, and the flag
is true at construction.  A tick of `think` negates the flag once if the
timer fires, which it does exactly when the remaining countdown has elapsed,
and leaves it unchanged if it does not; in any state reached from construction
a tick with zero elapsed time changes nothing, however often it is repeated. -/
theorem blink_alternates (BASE_SIZE : Nat) (x0 y0 : Int) (raw : Grid) (ops : List ViewOp)
    (v : BaseView) (elapsed n : Nat) :
    v.blinkStep.blink = (!v.blink) ∧
    v.blinkStep.blinkStep.blink = v.blink ∧
    (BaseView.init BASE_SIZE x0 y0 raw).blink = true ∧
    ((v.timer.tick elapsed).2 = true ↔ v.timer.remaining ≤ elapsed) ∧
    ((v.timer.tick elapsed).2 = true → (v.think elapsed).blink = (!v.blink)) ∧
    ((v.timer.tick elapsed).2 = false → (v.think elapsed).blink = v.blink) ∧
    (fun w : BaseView => w.think 0)^[n] ((BaseView.init BASE_SIZE x0 y0 raw).run BASE_SIZE ops)
      = (BaseView.init BASE_SIZE x0 y0 raw).run BASE_SIZE ops := by
  refine ⟨rfl, ?_, rfl, ?_, ?_, ?_, ?_⟩
  · show (!(!v.blink)) = v.blink
    exact Bool.not_not v.blink
  · unfold Timer.tick
    by_cases hfire : v.timer.remaining ≤ elapsed
    · rw [if_pos hfire]
      exact ⟨fun _ => hfire, fun _ => rfl⟩
    · rw [if_neg hfire]
      exact ⟨fun h => absurd h Bool.false_ne_true, fun h => absurd h hfire⟩
  · intro hfire
    unfold BaseView.think
    simp only [hfire, if_true]
    rfl
  · intro hfire
    unfold BaseView.think
    simp only [hfire, Bool.false_eq_true, if_false]
  · apply think_zero_iterate
    apply timerRunning_run
    have h100 : (0 : Nat) < 100 := by decide
    exact ⟨h100, h100⟩

theorem blinkStep_frame (v : BaseView) :
    v.blinkStep.facilities = v.facilities ∧ v.blinkStep.base = v.base ∧
    v.blinkStep.gridX = v.gridX ∧ v.blinkStep.gridY = v.gridY ∧
    v.blinkStep.selFacility = v.selFacility ∧ v.blinkStep.selSize = v.selSize ∧
    v.blinkStep.selector.position = v.selector.position ∧
    v.blinkStep.selector.isVisible = v.selector.isVisible := by
  refine ⟨rfl, rfl, rfl, rfl, rfl, rfl, ?_, ?_⟩
  · unfold BaseView.blinkStep
    simp only
    split
    · cases v.selector <;> rfl
    · rfl
  · unfold BaseView.blinkStep
    simp only
    split
    · cases v.selector <;> rfl
    · rfl

/-- C14. Blinking is presentational: after any number of firings of
`BaseView::blink` the occupancy grid, bound base, hover cell, selected
facility, selection size and the overlay's position and visibility are what
they were, and `isPlaceable` returns the same value for every rule. -/
theorem blink_is_presentational (BASE_SIZE : Nat) (v : BaseView) (n : Nat)
    (rule : RuleBaseFacility) :
    (BaseView.blinkStep^[n] v).facilities = v.facilities ∧
    (BaseView.blinkStep^[n] v).base = v.base ∧
    (BaseView.blinkStep^[n] v).gridX = v.gridX ∧
    (BaseView.blinkStep^[n] v).gridY = v.gridY ∧
    (BaseView.blinkStep^[n] v).selFacility = v.selFacility ∧
    (BaseView.blinkStep^[n] v).selSize = v.selSize ∧
    (BaseView.blinkStep^[n] v).selector.position = v.selector.position ∧
    (BaseView.blinkStep^[n] v).selector.isVisible = v.selector.isVisible ∧
    (BaseView.blinkStep^[n] v).isPlaceable BASE_SIZE rule = v.isPlaceable BASE_SIZE rule := by
  have frame : (BaseView.blinkStep^[n] v).facilities = v.facilities ∧
      (BaseView.blinkStep^[n] v).base = v.base ∧
      (BaseView.blinkStep^[n] v).gridX = v.gridX ∧
      (BaseView.blinkStep^[n] v).gridY = v.gridY ∧
      (BaseView.blinkStep^[n] v).selFacility = v.selFacility ∧
      (BaseView.blinkStep^[n] v).selSize = v.selSize ∧
      (BaseView.blinkStep^[n] v).selector.position = v.selector.position ∧
      (BaseView.blinkStep^[n] v).selector.isVisible = v.selector.isVisible := by
    induction n with
    | zero => exact ⟨rfl, rfl, rfl, rfl, rfl, rfl, rfl, rfl⟩
    | succ n ih =>
      rw [Function.iterate_succ_apply']
      obtain ⟨h1, h2, h3, h4, h5, h6, h7, h8⟩ := blinkStep_frame (BaseView.blinkStep^[n] v)
      obtain ⟨i1, i2, i3, i4, i5, i6, i7, i8⟩ := ih
      exact ⟨h1.trans i1, h2.trans i2, h3.trans i3, h4.trans i4, h5.trans i5, h6.trans i6,
        h7.trans i7, h8.trans i8⟩
  obtain ⟨h1, h2, h3, h4, h5, h6, h7, h8⟩ := frame
  refine ⟨h1, h2, h3, h4, h5, h6, h7, h8, ?_⟩
  unfold BaseView.isPlaceable
  rw [h1, h3, h4]

/-- C20. Hover and selection state is reset on rebind and on pointer leave:
after `setBase` the selected facility is none; after `mouseOut` the selected
facility is none, the overlay is hidden when the selection size is positive,
and the occupancy grid is unchanged. -/
theorem selection_reset (BASE_SIZE : Nat) (v : BaseView) (base : Base) :
    (v.setBase BASE_SIZE base).getSelectedFacility = none ∧
    v.mouseOut.getSelectedFacility = none ∧
    (v.selSize > 0 → v.mouseOut.selector.isVisible = false) ∧
    v.mouseOut.facilities = v.facilities := by
  refine ⟨rfl, rfl, ?_, rfl⟩
  intro hk
  unfold BaseView.mouseOut
  simp only [if_pos hk]
  cases v.selector <;> rfl

/-! ## Last write wins -/

theorem fillGrid_congr (fs : List BaseFacility) (g h : Grid) (x y : Int)
    (hgh : g x y = h x y) : fillGrid fs g x y = fillGrid fs h x y := by
  induction fs generalizing g h with
  | nil => exact hgh
  | cons f fs ih =>
    show fillGrid fs (placeFacility g f) x y = fillGrid fs (placeFacility h f) x y
    apply ih
    rw [placeFacility_apply, placeFacility_apply, hgh]

/-- C19. Last write wins: for every facility list on the board, overlapping
or not, after `setBase` each cell holds the last facility in list order whose
footprint covers it, a board cell that no footprint covers holds none, and
nothing off the board is written; `setBase` always returns, and what the
board holds afterwards does not depend on the view it was called on. -/
theorem setBase_last_write_wins (BASE_SIZE : Nat) (v : BaseView) (base : Base)
    (hfit : base.fitsBoard BASE_SIZE) :
    (∀ (l1 : List BaseFacility) (f : BaseFacility) (l2 : List BaseFacility) (x y : Int),
      base.facilities = l1 ++ f :: l2 → f.covers x y → (∀ f2 ∈ l2, ¬ f2.covers x y) →
      (v.setBase BASE_SIZE base).facilities x y = some f) ∧
    (∀ x y, onBoard BASE_SIZE x y → (∀ f ∈ base.facilities, ¬ f.covers x y) →
      (v.setBase BASE_SIZE base).facilities x y = none) ∧
    (∀ x y, ¬ onBoard BASE_SIZE x y →
      (v.setBase BASE_SIZE base).facilities x y = v.facilities x y) ∧
    (∀ (w : BaseView) (x y : Int), onBoard BASE_SIZE x y →
      (w.setBase BASE_SIZE base).facilities x y
        = (v.setBase BASE_SIZE base).facilities x y) := by
  refine ⟨?_, ?_, ?_, ?_⟩
  · intro l1 f l2 x y hl hf h2
    show fillGrid base.facilities (clearGrid BASE_SIZE v.facilities) x y = some f
    rw [hl]
    exact fillGrid_last l1 l2 f _ x y hf h2
  · intro x y hb hun
    show fillGrid base.facilities (clearGrid BASE_SIZE v.facilities) x y = none
    rw [fillGrid_uncovered _ _ _ _ hun, clearGrid_apply, if_pos hb]
  · intro x y hb
    have hun : ∀ f ∈ base.facilities, ¬ f.covers x y := fun f hm hc => hb (hfit f hm x y hc)
    show fillGrid base.facilities (clearGrid BASE_SIZE v.facilities) x y = v.facilities x y
    rw [fillGrid_uncovered _ _ _ _ hun, clearGrid_apply, if_neg hb]
  · intro w x y hb
    show fillGrid base.facilities (clearGrid BASE_SIZE w.facilities) x y
      = fillGrid base.facilities (clearGrid BASE_SIZE v.facilities) x y
    apply fillGrid_congr
    rw [clearGrid_apply, clearGrid_apply, if_pos hb, if_pos hb]

/-- Witness for C19: two overlapping 2x2 facilities at `(0, 0)` and `(1, 1)`;
the shared cell `(1, 1)` ends up with the second and `(0, 0)` with the
first, from a fresh view and from one that showed another base. -/
theorem setBase_last_write_wins_witness :
    overlapBase.fitsBoard 6 ∧
    ((freshView 6).setBase 6 overlapBase).facilities 1 1 = some (facilityAt 2 1 1 5) ∧
    ((freshView 6).setBase 6 overlapBase).facilities 0 0 = some (facilityAt 2 0 0 0) ∧
    ((scenarioView 0 0).setBase 6 overlapBase).facilities 2 2
      = ((freshView 6).setBase 6 overlapBase).facilities 2 2 := by
  have hfit : overlapBase.fitsBoard 6 := by
    intro f hf x y hc
    simp only [overlapBase, List.mem_cons, List.mem_singleton, List.not_mem_nil,
      or_false] at hf
    rcases hf with rfl | rfl <;>
      simp only [BaseFacility.covers, facilityAt, ruleOfSize] at hc <;>
      simp only [onBoard] <;> omega
  have h := setBase_last_write_wins 6 (freshView 6) overlapBase hfit
  refine ⟨hfit, ?_, ?_, ?_⟩
  · exact h.1 [facilityAt 2 0 0 0] (facilityAt 2 1 1 5) [] 1 1 rfl (by decide)
      (fun f2 hf2 => absurd hf2 (List.not_mem_nil f2))
  · refine h.1 [] (facilityAt 2 0 0 0) [facilityAt 2 1 1 5] 0 0 rfl (by decide) ?_
    intro f2 hf2
    rw [List.mem_singleton] at hf2
    subst hf2
    decide
  · exact h.2.2.2 (scenarioView 0 0) 2 2 (by decide)

/-! ## Array reads of the validator -/

theorem occupiedRowReads_fst (BASE_SIZE : Nat) (g : Grid) (y : Int) (xs : List Int) :
    (occupiedRowReads BASE_SIZE g y xs).1
      = xs.any fun x => (decide (x > (BASE_SIZE : Int)) || decide (y > (BASE_SIZE : Int)))
          || (g x y).isSome := by
  induction xs with
  | nil => rfl
  | cons x xs ih =>
    unfold occupiedRowReads
    rw [List.any_cons]
    by_cases h1 : x > (BASE_SIZE : Int) ∨ y > (BASE_SIZE : Int)
    · rw [if_pos h1]
      have : (decide (x > (BASE_SIZE : Int)) || decide (y > (BASE_SIZE : Int))) = true := by
        simpa using h1
      rw [this]
      rfl
    · rw [if_neg h1]
      have : (decide (x > (BASE_SIZE : Int)) || decide (y > (BASE_SIZE : Int))) = false := by
        simpa using h1
      rw [this]
      by_cases h2 : (g x y).isSome = true
      · rw [if_pos h2, h2]
        rfl
      · rw [if_neg h2]
        have h3 : (g x y).isSome = false := by simpa using h2
        rw [h3, ih]
        rfl

theorem occupiedReads_fst (BASE_SIZE : Nat) (g : Grid) (xs ys : List Int) :
    (occupiedReads BASE_SIZE g xs ys).1
      = ys.any fun y => xs.any fun x =>
          (decide (x > (BASE_SIZE : Int)) || decide (y > (BASE_SIZE : Int)))
            || (g x y).isSome := by
  induction ys with
  | nil => rfl
  | cons y ys ih =>
    unfold occupiedReads
    rw [List.any_cons, ← occupiedRowReads_fst]
    by_cases h : (occupiedRowReads BASE_SIZE g y xs).1 = true
    · rw [if_pos h, h]
      rfl
    · rw [if_neg h]
      have h3 : (occupiedRowReads BASE_SIZE g y xs).1 = false := by simpa using h
      rw [h3, ih]
      rfl

theorem guardedRead_fst (guard : Bool) (g : Grid) (x y : Int) :
    (guardedRead guard g x y).1 = (guard && operationalAt g x y) := by
  unfold guardedRead
  cases guard <;> rfl

theorem orElseReads_fst (a b : Bool × List (Int × Int)) :
    (orElseReads a b).1 = (a.1 || b.1) := by
  unfold orElseReads
  by_cases h : a.1 = true
  · rw [if_pos h, h]
    rfl
  · rw [if_neg h]
    have h3 : a.1 = false := by simpa using h
    rw [h3]
    rfl

theorem connectStepReads_fst (BASE_SIZE : Nat) (g : Grid) (gridX gridY size i : Int) :
    (connectStepReads BASE_SIZE g gridX gridY size i).1
      = ((decide (gridX > 0) && operationalAt g (gridX - 1) (gridY + i)) ||
        (decide (gridY > 0) && operationalAt g (gridX + i) (gridY - 1)) ||
        (decide (gridX + size < (BASE_SIZE : Int)) &&
          operationalAt g (gridX + size) (gridY + i)) ||
        (decide (gridY + size < (BASE_SIZE : Int)) &&
          operationalAt g (gridX + i) (gridY + size))) := by
  unfold connectStepReads
  simp only [orElseReads_fst, guardedRead_fst, Bool.or_assoc]

theorem connectReads_fst (BASE_SIZE : Nat) (g : Grid) (gridX gridY size : Int)
    (is : List Int) :
    (connectReads BASE_SIZE g gridX gridY size is).1
      = is.any fun i =>
        (decide (gridX > 0) && operationalAt g (gridX - 1) (gridY + i)) ||
        (decide (gridY > 0) && operationalAt g (gridX + i) (gridY - 1)) ||
        (decide (gridX + size < (BASE_SIZE : Int)) &&
          operationalAt g (gridX + size) (gridY + i)) ||
        (decide (gridY + size < (BASE_SIZE : Int)) &&
          operationalAt g (gridX + i) (gridY + size)) := by
  induction is with
  | nil => rfl
  | cons i is ih =>
    unfold connectReads
    rw [List.any_cons, ← connectStepReads_fst]
    by_cases h : (connectStepReads BASE_SIZE g gridX gridY size i).1 = true
    · rw [if_pos h, h]
      rfl
    · rw [if_neg h]
      have h3 : (connectStepReads BASE_SIZE g gridX gridY size i).1 = false := by
        simpa using h
      rw [h3, ih]
      rfl

/-- The validator with its reads returns what `isPlaceable` returns. -/
theorem isPlaceableReads_fst (BASE_SIZE : Nat) (v : BaseView) (rule : RuleBaseFacility) :
    (v.isPlaceableReads BASE_SIZE rule).1 = v.isPlaceable BASE_SIZE rule := by
  unfold BaseView.isPlaceableReads BaseView.isPlaceable occupiedScan connectScan
  simp only [occupiedReads_fst, connectReads_fst]
  split <;> rfl

theorem mem_occupiedRowReads (BASE_SIZE : Nat) (g : Grid) (y : Int) (xs : List Int)
    (p : Int × Int) (h : p ∈ (occupiedRowReads BASE_SIZE g y xs).2) :
    p.1 ∈ xs ∧ p.2 = y := by
  induction xs with
  | nil => exact absurd h (List.not_mem_nil p)
  | cons x xs ih =>
    unfold occupiedRowReads at h
    by_cases h1 : x > (BASE_SIZE : Int) ∨ y > (BASE_SIZE : Int)
    · rw [if_pos h1] at h
      exact absurd h (List.not_mem_nil p)
    · rw [if_neg h1] at h
      by_cases h2 : (g x y).isSome = true
      · rw [if_pos h2] at h
        rw [List.mem_singleton.mp h]
        exact ⟨List.mem_cons_self _ _, rfl⟩
      · rw [if_neg h2] at h
        rcases List.mem_cons.mp h with rfl | hm
        · exact ⟨List.mem_cons_self _ _, rfl⟩
        · exact ⟨List.mem_cons_of_mem _ (ih hm).1, (ih hm).2⟩

theorem mem_occupiedReads (BASE_SIZE : Nat) (g : Grid) (xs ys : List Int) (p : Int × Int)
    (h : p ∈ (occupiedReads BASE_SIZE g xs ys).2) : p.1 ∈ xs ∧ p.2 ∈ ys := by
  induction ys with
  | nil => exact absurd h (List.not_mem_nil p)
  | cons y ys ih =>
    unfold occupiedReads at h
    by_cases h1 : (occupiedRowReads BASE_SIZE g y xs).1 = true
    · rw [if_pos h1] at h
      have hr := mem_occupiedRowReads BASE_SIZE g y xs p h
      exact ⟨hr.1, hr.2 ▸ List.mem_cons_self _ _⟩
    · rw [if_neg h1] at h
      rcases List.mem_append.mp h with hm | hm
      · have hr := mem_occupiedRowReads BASE_SIZE g y xs p hm
        exact ⟨hr.1, hr.2 ▸ List.mem_cons_self _ _⟩
      · exact ⟨(ih hm).1, List.mem_cons_of_mem _ (ih hm).2⟩

theorem mem_guardedRead (guard : Bool) (g : Grid) (x y : Int) (p : Int × Int)
    (h : p ∈ (guardedRead guard g x y).2) : guard = true ∧ p = (x, y) := by
  unfold guardedRead at h
  cases guard with
  | false => exact absurd h (List.not_mem_nil p)
  | true => exact ⟨rfl, List.mem_singleton.mp h⟩

theorem mem_orElseReads (a b : Bool × List (Int × Int)) (p : Int × Int)
    (h : p ∈ (orElseReads a b).2) : p ∈ a.2 ∨ p ∈ b.2 := by
  unfold orElseReads at h
  by_cases ha : a.1 = true
  · rw [if_pos ha] at h
    exact Or.inl h
  · rw [if_neg ha] at h
    exact List.mem_append.mp h

theorem mem_connectReads (BASE_SIZE : Nat) (g : Grid) (gridX gridY size : Int)
    (is : List Int) (p : Int × Int)
    (h : p ∈ (connectReads BASE_SIZE g gridX gridY size is).2) :
    ∃ i ∈ is, p ∈ (connectStepReads BASE_SIZE g gridX gridY size i).2 := by
  induction is with
  | nil => exact absurd h (List.not_mem_nil p)
  | cons i is ih =>
    unfold connectReads at h
    by_cases h1 : (connectStepReads BASE_SIZE g gridX gridY size i).1 = true
    · rw [if_pos h1] at h
      exact ⟨i, List.mem_cons_self _ _, h⟩
    · rw [if_neg h1] at h
      rcases List.mem_append.mp h with hm | hm
      · exact ⟨i, List.mem_cons_self _ _, hm⟩
      · obtain ⟨j, hj, hp⟩ := ih hm
        exact ⟨j, List.mem_cons_of_mem _ hj, hp⟩

/-- When the candidate footprint lies on the board, every cell that the
validator reads is on the board. -/
theorem isPlaceableReads_on_board (BASE_SIZE : Nat) (v : BaseView) (rule : RuleBaseFacility)
    (hfit : ∀ x y, inFootprint v.gridX v.gridY rule.size x y → onBoard BASE_SIZE x y)
    (p : Int × Int) (hp : p ∈ (v.isPlaceableReads BASE_SIZE rule).2) :
    onBoard BASE_SIZE p.1 p.2 := by
  have hocc : ∀ q : Int × Int,
      q ∈ (occupiedReads BASE_SIZE v.facilities (forRange v.gridX (v.gridX + rule.size))
        (forRange v.gridY (v.gridY + rule.size))).2 → onBoard BASE_SIZE q.1 q.2 := by
    intro q hq
    obtain ⟨hx, hy⟩ := mem_occupiedReads _ _ _ _ q hq
    rw [mem_forRange] at hx hy
    exact hfit q.1 q.2 ⟨hx.1, hx.2, hy.1, hy.2⟩
  have hcon : ∀ q : Int × Int,
      q ∈ (connectReads BASE_SIZE v.facilities v.gridX v.gridY rule.size
        (forRange 0 rule.size)).2 → onBoard BASE_SIZE q.1 q.2 := by
    intro q hq
    obtain ⟨i, hi, hstep⟩ := mem_connectReads _ _ _ _ _ _ q hq
    rw [mem_forRange] at hi
    have hc1 := hfit v.gridX v.gridY (by unfold inFootprint; omega)
    have hc2 := hfit (v.gridX + rule.size - 1) (v.gridY + rule.size - 1)
      (by unfold inFootprint; omega)
    unfold onBoard at hc1 hc2
    unfold connectStepReads at hstep
    rcases mem_orElseReads _ _ q hstep with h1 | h1
    · obtain ⟨hg, rfl⟩ := mem_guardedRead _ _ _ _ q h1
      have hg2 : v.gridX > 0 := of_decide_eq_true hg
      unfold onBoard
      simp only
      omega
    rcases mem_orElseReads _ _ q h1 with h2 | h2
    · obtain ⟨hg, rfl⟩ := mem_guardedRead _ _ _ _ q h2
      have hg2 : v.gridY > 0 := of_decide_eq_true hg
      unfold onBoard
      simp only
      omega
    rcases mem_orElseReads _ _ q h2 with h3 | h3
    · obtain ⟨hg, rfl⟩ := mem_guardedRead _ _ _ _ q h3
      have hg2 : v.gridX + rule.size < (BASE_SIZE : Int) := of_decide_eq_true hg
      unfold onBoard
      simp only
      omega
    · obtain ⟨hg, rfl⟩ := mem_guardedRead _ _ _ _ q h3
      have hg2 : v.gridY + rule.size < (BASE_SIZE : Int) := of_decide_eq_true hg
      unfold onBoard
      simp only
      omega
  unfold BaseView.isPlaceableReads at hp
  simp only at hp
  split at hp
  · exact hocc p hp
  · rcases List.mem_append.mp hp with hm | hm
    · exact hocc p hm
    · exact hcon p hm

/-- C18, evaluation at two failing inputs.  On the 6x6 board of `edgeView`
(hover cell `(0, 5)`, one facility at `(0, 4)`) the validator for a 2x2
candidate reads, in order, the cells `(0, 5)`, `(1, 5)`, `(0, 6)`, `(1, 6)` and
`(0, 4)`, of which `(0, 6)` and `(1, 6)` have the index 6 and are off the
board.  With the pointer left of the view (hover cell `(-3, 0)`) the validator
for a 1x1 candidate reads `(-3, 0)`, `(-2, 0)` and `(-3, 1)`, all off the
board. -/
theorem isPlaceable_reads_off_board :
    (edgeView.isPlaceableReads 6 (ruleOfSize 2)).2 = [(0, 5), (1, 5), (0, 6), (1, 6), (0, 4)] ∧
    ¬ onBoard 6 0 6 ∧ ¬ onBoard 6 1 6 ∧
    leftOfView.gridX = -3 ∧ leftOfView.gridY = 0 ∧
    (leftOfView.isPlaceableReads 6 (ruleOfSize 1)).2 = [(-3, 0), (-2, 0), (-3, 1)] ∧
    ¬ onBoard 6 (-3) 0 ∧ ¬ onBoard 6 (-2) 0 ∧ ¬ onBoard 6 (-3) 1 := by
  refine ⟨by decide, by decide, by decide, by decide, by decide, by decide, by decide,
    by decide, by decide⟩

/-! ## Inventory sections -/

theorem slotHit_eq_true (c : InventoryConsts) (r : RuleInventory)
    (mouseX mouseY sx sy : Int) :
    slotHit c r mouseX mouseY sx sy = true ↔ inSlotRect c r mouseX mouseY sx sy := by
  unfold slotHit inSlotRect
  simp only [Bool.and_eq_true, decide_eq_true_eq, ge_iff_le, and_assoc]

theorem checkSlots_spec (c : InventoryConsts) (r : RuleInventory) (mouseX mouseY : Int)
    (slots : List RuleSlot) :
    ((checkSlots c r mouseX mouseY slots).1 = true →
      ∃ l1 s l2, slots = l1 ++ s :: l2 ∧ inSlotRect c r mouseX mouseY s.x s.y ∧
        (∀ s2 ∈ l1, ¬ inSlotRect c r mouseX mouseY s2.x s2.y) ∧
        (checkSlots c r mouseX mouseY slots).2 = (s.x, s.y)) ∧
    ((checkSlots c r mouseX mouseY slots).1 = false →
      (∀ s ∈ slots, ¬ inSlotRect c r mouseX mouseY s.x s.y) ∧
        (checkSlots c r mouseX mouseY slots).2 = (mouseX, mouseY)) := by
  induction slots with
  | nil =>
    refine ⟨fun h => absurd h Bool.false_ne_true, fun _ => ⟨?_, rfl⟩⟩
    intro s hs
    exact absurd hs (List.not_mem_nil s)
  | cons s0 rest ih =>
    unfold checkSlots
    by_cases hhit : slotHit c r mouseX mouseY s0.x s0.y = true
    · rw [if_pos hhit]
      refine ⟨fun _ => ⟨[], s0, rest, rfl, (slotHit_eq_true _ _ _ _ _ _).mp hhit, ?_, rfl⟩,
        fun h => absurd h.symm Bool.false_ne_true⟩
      intro s2 hs2
      exact absurd hs2 (List.not_mem_nil s2)
    · rw [if_neg hhit]
      have hmiss : ¬ inSlotRect c r mouseX mouseY s0.x s0.y :=
        fun h => hhit ((slotHit_eq_true _ _ _ _ _ _).mpr h)
      constructor
      · intro h
        obtain ⟨l1, s, l2, hl, hs, hbefore, hout⟩ := ih.1 h
        refine ⟨s0 :: l1, s, l2, by rw [hl]; rfl, hs, ?_, hout⟩
        intro s2 hs2
        rcases List.mem_cons.mp hs2 with rfl | hm
        · exact hmiss
        · exact hbefore s2 hm
      · intro h
        obtain ⟨hnone, hout⟩ := ih.2 h
        refine ⟨?_, hout⟩
        intro s2 hs2
        rcases List.mem_cons.mp hs2 with rfl | hm
        · exact hmiss
        · exact hnone s2 hm

/-- C15. For a section whose type is not `INV_HAND`, `checkSlotInPosition`
returns true if and only if some slot `(sx, sy)` of the list satisfies
`_x + sx*SLOT_W ≤ mouseX < _x + (sx+1)*SLOT_W` and
`_y + sy*SLOT_H ≤ mouseY < _y + (sy+1)*SLOT_H`; on true the outputs are the
grid coordinates of the first such slot in list order, which is the order of
the `addSlot` calls; on false `x` and `y` are unchanged. -/
theorem checkSlotInPosition_slots (c : InventoryConsts) (r : RuleInventory) (x y : Int)
    (hne : r.type ≠ .INV_HAND) :
    ((r.checkSlotInPosition c x y).1 = true ↔
      ∃ s ∈ r.slots, inSlotRect c r x y s.x s.y) ∧
    ((r.checkSlotInPosition c x y).1 = true →
      ∃ l1 s l2, r.slots = l1 ++ s :: l2 ∧ inSlotRect c r x y s.x s.y ∧
        (∀ s2 ∈ l1, ¬ inSlotRect c r x y s2.x s2.y) ∧
        (r.checkSlotInPosition c x y).2 = (s.x, s.y)) ∧
    ((r.checkSlotInPosition c x y).1 = false → (r.checkSlotInPosition c x y).2 = (x, y)) ∧
    (∀ a b, (r.addSlot a b).slots = r.slots ++ [{ x := a, y := b }]) := by
  have hdef : r.checkSlotInPosition c x y = checkSlots c r x y r.slots := by
    unfold RuleInventory.checkSlotInPosition
    rw [if_neg hne]
  rw [hdef]
  have hspec := checkSlots_spec c r x y r.slots
  refine ⟨⟨?_, ?_⟩, hspec.1, fun h => (hspec.2 h).2, fun _ _ => rfl⟩
  · intro h
    obtain ⟨l1, s, l2, hl, hs, -, -⟩ := hspec.1 h
    exact ⟨s, by rw [hl]; exact List.mem_append_right _ (List.mem_cons_self _ _), hs⟩
  · rintro ⟨s, hm, hs⟩
    by_contra hf
    have hfalse : (checkSlots c r x y r.slots).1 = false := by simpa using hf
    exact (hspec.2 hfalse).1 s hm hs

/-- Witness for C15: on the section at `(10, 20)` with slots `(0, 0)`,
`(1, 0)`, `(1, 0)`, the mouse position `(30, 25)` is in slot `(1, 0)` and the
position `(50, 25)` is in no slot. -/
theorem checkSlotInPosition_slots_witness :
    beltSection.type ≠ .INV_HAND ∧
    beltSection.slots = [⟨0, 0⟩, ⟨1, 0⟩, ⟨1, 0⟩] ∧
    beltSection.checkSlotInPosition slotConsts 30 25 = (true, 1, 0) ∧
    ((beltSection.checkSlotInPosition slotConsts 50 25).1 = false →
      (beltSection.checkSlotInPosition slotConsts 50 25).2 = (50, 25)) ∧
    beltSection.checkSlotInPosition slotConsts 50 25 = (false, 50, 25) := by
  have hne : beltSection.type ≠ .INV_HAND := by decide
  exact ⟨hne, by decide, by decide,
    (checkSlotInPosition_slots slotConsts beltSection 50 25 hne).2.2.1, by decide⟩

/-- Cells of positive width `w` laid side by side from `origin` cover the
interval `[origin, origin + n * w)` exactly. -/
theorem cells_tile (origin w n p : Int) (hw : 0 < w) :
    (∃ k, (0 ≤ k ∧ k < n) ∧ origin + k * w ≤ p ∧ p < origin + (k + 1) * w) ↔
      origin ≤ p ∧ p < origin + n * w := by
  constructor
  · rintro ⟨k, ⟨hk0, hkn⟩, hlo, hhi⟩
    have h1 : 0 ≤ k * w := Int.mul_nonneg hk0 (le_of_lt hw)
    have h2 : (k + 1) * w ≤ n * w := Int.mul_le_mul_of_nonneg_right (by omega) (le_of_lt hw)
    constructor <;> omega
  · rintro ⟨hlo, hhi⟩
    have h0 : 0 ≤ p - origin := by omega
    refine ⟨(p - origin) / w, ⟨Int.ediv_nonneg h0 (le_of_lt hw), ?_⟩, ?_, ?_⟩
    · exact Int.ediv_lt_of_lt_mul hw (by omega)
    · have := Int.ediv_mul_le (p - origin) (ne_of_gt hw)
      omega
    · have := Int.lt_ediv_add_one_mul_self (p - origin) hw
      omega

/-- C16. For a section of type `INV_HAND` and slots of positive pixel size,
`checkSlotInPosition` returns true if and only if the mouse position lies in
the rectangle `[_x, _x + HAND_W*SLOT_W) x [_y, _y + HAND_H*SLOT_H)`; on true
the outputs are `(0, 0)`, on false `x` and `y` are unchanged; the slot list
plays no part. -/
theorem checkSlotInPosition_hand (c : InventoryConsts) (r : RuleInventory) (x y : Int)
    (hhand : r.type = .INV_HAND) (hw : 0 < c.SLOT_W) (hh : 0 < c.SLOT_H) :
    ((r.checkSlotInPosition c x y).1 = true ↔
      r.x ≤ x ∧ x < r.x + c.HAND_W * c.SLOT_W ∧ r.y ≤ y ∧ y < r.y + c.HAND_H * c.SLOT_H) ∧
    ((r.checkSlotInPosition c x y).1 = true → (r.checkSlotInPosition c x y).2 = (0, 0)) ∧
    ((r.checkSlotInPosition c x y).1 = false → (r.checkSlotInPosition c x y).2 = (x, y)) ∧
    (∀ slots : List RuleSlot,
      RuleInventory.checkSlotInPosition c { r with slots := slots } x y
        = r.checkSlotInPosition c x y) := by
  have hscan : ((forRange 0 c.HAND_W).any fun xx =>
      (forRange 0 c.HAND_H).any fun yy => slotHit c r x y xx yy) = true ↔
      r.x ≤ x ∧ x < r.x + c.HAND_W * c.SLOT_W ∧ r.y ≤ y ∧ y < r.y + c.HAND_H * c.SLOT_H := by
    simp only [List.any_eq_true, mem_forRange, slotHit_eq_true, inSlotRect, zero_add]
    constructor
    · rintro ⟨xx, hxx, yy, hyy, hx1, hx2, hy1, hy2⟩
      have hX := (cells_tile r.x c.SLOT_W c.HAND_W x hw).mp ⟨xx, hxx, hx1, hx2⟩
      have hY := (cells_tile r.y c.SLOT_H c.HAND_H y hh).mp ⟨yy, hyy, hy1, hy2⟩
      exact ⟨hX.1, hX.2, hY.1, hY.2⟩
    · rintro ⟨hx1, hx2, hy1, hy2⟩
      obtain ⟨xx, hxx, hx3, hx4⟩ := (cells_tile r.x c.SLOT_W c.HAND_W x hw).mpr ⟨hx1, hx2⟩
      obtain ⟨yy, hyy, hy3, hy4⟩ := (cells_tile r.y c.SLOT_H c.HAND_H y hh).mpr ⟨hy1, hy2⟩
      exact ⟨xx, hxx, yy, hyy, hx3, hx4, hy3, hy4⟩
  have hindep : ∀ slots : List RuleSlot,
      RuleInventory.checkSlotInPosition c { r with slots := slots } x y
        = r.checkSlotInPosition c x y := by
    intro slots
    have hhand2 : ({ r with slots := slots } : RuleInventory).type = .INV_HAND := hhand
    unfold RuleInventory.checkSlotInPosition
    rw [if_pos hhand, if_pos hhand2]
    rfl
  refine ⟨?_, ?_, ?_, hindep⟩
  · unfold RuleInventory.checkSlotInPosition
    rw [if_pos hhand, ← hscan]
    split
    · exact ⟨fun _ => by assumption, fun _ => rfl⟩
    · exact ⟨fun h => absurd h Bool.false_ne_true, fun h => by contradiction⟩
  · unfold RuleInventory.checkSlotInPosition
    rw [if_pos hhand]
    split
    · exact fun _ => rfl
    · exact fun h => absurd h Bool.false_ne_true
  · unfold RuleInventory.checkSlotInPosition
    rw [if_pos hhand]
    split
    · exact fun h => absurd h.symm Bool.false_ne_true
    · exact fun _ => rfl

/-- Witness for C16: a hand at `(10, 20)` with 16x16 slots and a 2x3 grid
covers `[10, 42) x [20, 68)`; the position `(41, 67)` is inside and `(42, 67)`
is outside. -/
theorem checkSlotInPosition_hand_witness :
    handSection.type = .INV_HAND ∧ 0 < slotConsts.SLOT_W ∧ 0 < slotConsts.SLOT_H ∧
    ((handSection.checkSlotInPosition slotConsts 41 67).1 = true ↔
      handSection.x ≤ 41 ∧ 41 < handSection.x + slotConsts.HAND_W * slotConsts.SLOT_W ∧
        handSection.y ≤ 67 ∧ 67 < handSection.y + slotConsts.HAND_H * slotConsts.SLOT_H) ∧
    handSection.checkSlotInPosition slotConsts 41 67 = (true, 0, 0) ∧
    handSection.checkSlotInPosition slotConsts 42 67 = (false, 42, 67) := by
  have hhand : handSection.type = .INV_HAND := by decide
  have hw : 0 < slotConsts.SLOT_W := by decide
  have hh : 0 < slotConsts.SLOT_H := by decide
  exact ⟨hhand, hw, hh,
    (checkSlotInPosition_hand slotConsts handSection 41 67 hhand hw hh).1,
    by decide, by decide⟩

/-! ## Craft weapons -/

theorem load_save (w t : RuleCraftWeapon) : t.load w.save = some w := by
  cases w
  cases t
  simp [RuleCraftWeapon.save, RuleCraftWeapon.load, RuleCraftWeapon.loadEntry,
    YamlScalar.readString, YamlScalar.readInt]

theorem loadEntry_field (w w2 : RuleCraftWeapon) (key k : String) (value : YamlScalar)
    (h : w.loadEntry k value = some w2) (hne : key ≠ k) : w2.field key = w.field key := by
  unfold RuleCraftWeapon.loadEntry at h
  by_cases h0 : k = "type"
  · rw [if_pos h0] at h
    obtain ⟨a, -, rfl⟩ := Option.map_eq_some'.mp h
    have hk : ¬ key = "type" := fun e => hne (e.trans h0.symm)
    simp only [RuleCraftWeapon.field, if_neg hk]
  rw [if_neg h0] at h
  by_cases h1 : k = "sprite"
  · rw [if_pos h1] at h
    obtain ⟨a, -, rfl⟩ := Option.map_eq_some'.mp h
    have hk : ¬ key = "sprite" := fun e => hne (e.trans h1.symm)
    simp only [RuleCraftWeapon.field, if_neg hk]
  rw [if_neg h1] at h
  by_cases h2 : k = "sound"
  · rw [if_pos h2] at h
    obtain ⟨a, -, rfl⟩ := Option.map_eq_some'.mp h
    have hk : ¬ key = "sound" := fun e => hne (e.trans h2.symm)
    simp only [RuleCraftWeapon.field, if_neg hk]
  rw [if_neg h2] at h
  by_cases h3 : k = "damage"
  · rw [if_pos h3] at h
    obtain ⟨a, -, rfl⟩ := Option.map_eq_some'.mp h
    have hk : ¬ key = "damage" := fun e => hne (e.trans h3.symm)
    simp only [RuleCraftWeapon.field, if_neg hk]
  rw [if_neg h3] at h
  by_cases h4 : k = "range"
  · rw [if_pos h4] at h
    obtain ⟨a, -, rfl⟩ := Option.map_eq_some'.mp h
    have hk : ¬ key = "range" := fun e => hne (e.trans h4.symm)
    simp only [RuleCraftWeapon.field, if_neg hk]
  rw [if_neg h4] at h
  by_cases h5 : k = "accuracy"
  · rw [if_pos h5] at h
    obtain ⟨a, -, rfl⟩ := Option.map_eq_some'.mp h
    have hk : ¬ key = "accuracy" := fun e => hne (e.trans h5.symm)
    simp only [RuleCraftWeapon.field, if_neg hk]
  rw [if_neg h5] at h
  by_cases h6 : k = "reloadCautious"
  · rw [if_pos h6] at h
    obtain ⟨a, -, rfl⟩ := Option.map_eq_some'.mp h
    have hk : ¬ key = "reloadCautious" := fun e => hne (e.trans h6.symm)
    simp only [RuleCraftWeapon.field, if_neg hk]
  rw [if_neg h6] at h
  by_cases h7 : k = "reloadStandard"
  · rw [if_pos h7] at h
    obtain ⟨a, -, rfl⟩ := Option.map_eq_some'.mp h
    have hk : ¬ key = "reloadStandard" := fun e => hne (e.trans h7.symm)
    simp only [RuleCraftWeapon.field, if_neg hk]
  rw [if_neg h7] at h
  by_cases h8 : k = "reloadAggressive"
  · rw [if_pos h8] at h
    obtain ⟨a, -, rfl⟩ := Option.map_eq_some'.mp h
    have hk : ¬ key = "reloadAggressive" := fun e => hne (e.trans h8.symm)
    simp only [RuleCraftWeapon.field, if_neg hk]
  rw [if_neg h8] at h
  by_cases h9 : k = "ammoMax"
  · rw [if_pos h9] at h
    obtain ⟨a, -, rfl⟩ := Option.map_eq_some'.mp h
    have hk : ¬ key = "ammoMax" := fun e => hne (e.trans h9.symm)
    simp only [RuleCraftWeapon.field, if_neg hk]
  rw [if_neg h9] at h
  by_cases h10 : k = "rearmRate"
  · rw [if_pos h10] at h
    obtain ⟨a, -, rfl⟩ := Option.map_eq_some'.mp h
    have hk : ¬ key = "rearmRate" := fun e => hne (e.trans h10.symm)
    simp only [RuleCraftWeapon.field, if_neg hk]
  rw [if_neg h10] at h
  by_cases h11 : k = "launcher"
  · rw [if_pos h11] at h
    obtain ⟨a, -, rfl⟩ := Option.map_eq_some'.mp h
    have hk : ¬ key = "launcher" := fun e => hne (e.trans h11.symm)
    simp only [RuleCraftWeapon.field, if_neg hk]
  rw [if_neg h11] at h
  by_cases h12 : k = "clip"
  · rw [if_pos h12] at h
    obtain ⟨a, -, rfl⟩ := Option.map_eq_some'.mp h
    have hk : ¬ key = "clip" := fun e => hne (e.trans h12.symm)
    simp only [RuleCraftWeapon.field, if_neg hk]
  rw [if_neg h12] at h
  cases h
  rfl

theorem load_field (node : YamlMap) (t t2 : RuleCraftWeapon) (key : String)
    (h : t.load node = some t2) (hkey : key ∉ node.map Prod.fst) :
    t2.field key = t.field key := by
  induction node generalizing t with
  | nil =>
    cases h
    rfl
  | cons kv rest ih =>
    obtain ⟨k, value⟩ := kv
    unfold RuleCraftWeapon.load at h
    rw [List.map_cons, List.mem_cons, not_or] at hkey
    cases hE : t.loadEntry k value with
    | none =>
      rw [hE] at h
      cases h
    | some t1 =>
      rw [hE] at h
      rw [ih t1 h hkey.2]
      exact loadEntry_field t t1 key k value hE hkey.1

theorem loadEntry_unknown (w : RuleCraftWeapon) (key : String) (value : YamlScalar)
    (h : key ∉ craftWeaponKeys) : w.loadEntry key value = some w := by
  simp only [craftWeaponKeys, List.mem_cons, List.mem_singleton, List.not_mem_nil, or_false,
    not_or] at h
  obtain ⟨h1, h2, h3, h4, h5, h6, h7, h8, h9, h10, h11, h12, h13⟩ := h
  unfold RuleCraftWeapon.loadEntry
  rw [if_neg h1, if_neg h2, if_neg h3, if_neg h4, if_neg h5, if_neg h6, if_neg h7, if_neg h8,
    if_neg h9, if_neg h10, if_neg h11, if_neg h12, if_neg h13]

theorem load_skip_unknown (n1 n2 : YamlMap) (t : RuleCraftWeapon) (key : String)
    (value : YamlScalar) (h : key ∉ craftWeaponKeys) :
    t.load (n1 ++ (key, value) :: n2) = t.load (n1 ++ n2) := by
  induction n1 generalizing t with
  | nil =>
    show t.load ((key, value) :: n2) = t.load n2
    unfold RuleCraftWeapon.load
    rw [loadEntry_unknown t key value h]
    cases n2 <;> rfl
  | cons kv rest ih =>
    obtain ⟨k, v⟩ := kv
    show RuleCraftWeapon.load t ((k, v) :: (rest ++ (key, value) :: n2))
      = RuleCraftWeapon.load t ((k, v) :: (rest ++ n2))
    unfold RuleCraftWeapon.load
    cases t.loadEntry k v with
    | none => rfl
    | some t1 => exact ih t1

/-- C17. Save/load round trip of a craft weapon: loading into any weapon `t`
the map produced by `w.save` succeeds and gives a weapon all of whose
thirteen fields are those of `w`; a successful `load` leaves unchanged every
field whose key does not occur in the map; and a pair whose key is none of
the thirteen has no effect wherever it stands in the map. -/
theorem craftWeapon_save_load_round_trip (w t : RuleCraftWeapon) :
    t.load w.save = some w ∧
    (∀ (node : YamlMap) (t2 : RuleCraftWeapon) (key : String),
      t.load node = some t2 → key ∉ node.map Prod.fst → t2.field key = t.field key) ∧
    (∀ (n1 n2 : YamlMap) (key : String) (value : YamlScalar), key ∉ craftWeaponKeys →
      t.load (n1 ++ (key, value) :: n2) = t.load (n1 ++ n2)) :=
  ⟨load_save w t, fun node t2 key h hk => load_field node t t2 key h hk,
    fun n1 n2 key value h => load_skip_unknown n1 n2 t key value h⟩

/-! ## Render composer -/

theorem step_keeps_disabled_selector (BASE_SIZE : Nat) (v : BaseView) (op : ViewOp)
    (hk : op.keepsSelection) (hoff : v.selSize ≤ 0) :
    (v.step BASE_SIZE op).selSize = v.selSize ∧
      (v.step BASE_SIZE op).selector = v.selector := by
  have hn : ¬ v.selSize > 0 := by omega
  cases op with
  | setBase base => exact ⟨rfl, rfl⟩
  | setSelectable size => exact absurd hk (by simp [ViewOp.keepsSelection])
  | mouseOver ev scale =>
    unfold BaseView.step BaseView.mouseOver
    simp only [if_neg hn]
    split <;> exact ⟨rfl, rfl⟩
  | mouseOut =>
    unfold BaseView.step BaseView.mouseOut
    simp only [if_neg hn]
    exact ⟨trivial, trivial⟩
  | blink =>
    unfold BaseView.step BaseView.blinkStep
    simp only [if_neg hn]
    exact ⟨trivial, trivial⟩
  | think elapsed =>
    unfold BaseView.step BaseView.think BaseView.blinkStep
    simp only [if_neg hn]
    split <;> exact ⟨rfl, rfl⟩

/-- While the selection size is not positive, no sequence of `setBase`,
`mouseOver`, `mouseOut`, `blink` and `think` touches the selector pointer or
the selection size. -/
theorem run_keeps_disabled_selector (BASE_SIZE : Nat) (ops : List ViewOp) (v : BaseView)
    (hk : ∀ op ∈ ops, op.keepsSelection) (hoff : v.selSize ≤ 0) :
    (v.run BASE_SIZE ops).selSize = v.selSize ∧
      (v.run BASE_SIZE ops).selector = v.selector := by
  induction ops generalizing v with
  | nil => exact ⟨rfl, rfl⟩
  | cons op ops ih =>
    obtain ⟨h1, h2⟩ := step_keeps_disabled_selector BASE_SIZE v op
      (hk op (List.mem_cons_self _ _)) hoff
    obtain ⟨h3, h4⟩ := ih (v.step BASE_SIZE op)
      (fun o ho => hk o (List.mem_cons_of_mem _ ho)) (by rw [h1]; exact hoff)
    exact ⟨h3.trans h1, h4.trans h2⟩

/-- From construction, as long as `setSelectable` has not been called, the
selector pointer is null: the overlay is not visible and `blit` does not
blit it. -/
theorem initial_selection_never_drawn (BASE_SIZE : Nat) (x0 y0 : Int) (raw : Grid)
    (ops : List ViewOp) (hk : ∀ op ∈ ops, op.keepsSelection) :
    ((BaseView.init BASE_SIZE x0 y0 raw).run BASE_SIZE ops).selector.isVisible = false ∧
    ((BaseView.init BASE_SIZE x0 y0 raw).run BASE_SIZE ops).blit = .skipped := by
  have h := (run_keeps_disabled_selector BASE_SIZE ops (BaseView.init BASE_SIZE x0 y0 raw) hk
    (le_refl (0 : Int))).2
  unfold BaseView.blit
  rw [h]
  exact ⟨rfl, rfl⟩

/-- The call `setSelectable(k)` with `k > 0` creates an overlay of `k * 32`
by `k * 32` pixels at the view's position that starts hidden. -/
theorem setSelectable_creates_hidden (v : BaseView) (k : Int) (hk : k > 0) :
    (v.setSelectable k).selSize = k ∧
    (v.setSelectable k).selector
      = .live { width := k * 32, height := k * 32, x := v.x, y := v.y, visible := false,
                bordered := true } ∧
    (v.setSelectable k).selector.isVisible = false := by
  unfold BaseView.setSelectable
  simp only [if_pos hk, GRID_SIZE, SelectorPtr.isVisible]
  exact ⟨trivial, trivial, trivial⟩

/-- C21, evaluation at the failing input.  On a fresh 6x6 view,
`setSelectable(2)` and a pointer move over cell `(1, 1)` show the overlay;
`setSelectable(0)` then sets the selection size to 0 and deletes the selector
without clearing the pointer.  Through the following `mouseOver`, `blink` and
`mouseOut` the pointer stays as it is, so the test `_selector != 0` in `blit`
passes and `blit` is called on the deleted surface. -/
theorem disabled_selection_blits_deleted_selector :
    ((freshView 6).run 6 (staleOps.take 2)).selector.isVisible = true ∧
    ((freshView 6).run 6 (staleOps.take 3)).selSize = 0 ∧
    ((freshView 6).run 6 (staleOps.take 3)).blit = .deletedSurface ∧
    ((freshView 6).run 6 staleOps).selSize = 0 ∧
    ((freshView 6).run 6 staleOps).selector = .deleted ∧
    ((freshView 6).run 6 staleOps).blit = .deletedSurface := by
  refine ⟨by decide, by decide, by decide, by decide, by decide, by decide⟩

/-! ## Render composer -/

theorem forRange_eq_map (a : Int) (n : Nat) :
    forRange a (a + (n : Int)) = (List.range n).map fun (k : Nat) => a + (k : Int) := by
  unfold forRange
  have h : (a + (n : Int) - a).toNat = n := by omega
  rw [h]

theorem getElem?_flatMap_uniform {α β : Type} (L : List α) (g : α → List β) (n : Nat)
    (hlen : ∀ a ∈ L, (g a).length = n) (r c : Nat) (hc : c < n) :
    (L.flatMap g)[r * n + c]? = (L[r]?).bind fun a => (g a)[c]? := by
  induction L generalizing r with
  | nil => simp
  | cons a L ih =>
    have ha : (g a).length = n := hlen a (List.mem_cons_self _ _)
    have hL : ∀ b ∈ L, (g b).length = n := fun b hb => hlen b (List.mem_cons_of_mem _ hb)
    rw [List.flatMap_cons]
    cases r with
    | zero =>
      rw [Nat.zero_mul, Nat.zero_add, List.getElem?_append_left (by omega),
        List.getElem?_cons_zero]
      rfl
    | succ r =>
      have hidx : (g a).length ≤ (r + 1) * n + c := by
        rw [ha, Nat.succ_mul]
        omega
      rw [List.getElem?_append_right hidx, ha]
      have hsub : (r + 1) * n + c - n = r * n + c := by
        rw [Nat.succ_mul]
        omega
      rw [hsub, ih hL, List.getElem?_cons_succ]

theorem footprintCells_getElem? (f : BaseFacility) (n r c : Nat)
    (hsize : f.rules.size = (n : Int)) (hr : r < n) (hc : c < n) :
    (footprintCells f)[r * n + c]? = some (f.x + (c : Int), f.y + (r : Int)) := by
  unfold footprintCells
  rw [hsize, forRange_eq_map, forRange_eq_map]
  rw [getElem?_flatMap_uniform _ _ n (by intro a _; simp) r c hc]
  simp [hr, hc]

theorem length_flatMap_uniform {α β : Type} (L : List α) (g : α → List β) (n : Nat)
    (hlen : ∀ a ∈ L, (g a).length = n) : (L.flatMap g).length = L.length * n := by
  induction L with
  | nil => simp
  | cons a L ih =>
    rw [List.flatMap_cons, List.length_append, hlen a (List.mem_cons_self _ _),
      ih (fun b hb => hlen b (List.mem_cons_of_mem _ hb)), List.length_cons, Nat.succ_mul]
    omega

theorem footprintCells_length (f : BaseFacility) (n : Nat)
    (hsize : f.rules.size = (n : Int)) : (footprintCells f).length = n * n := by
  unfold footprintCells
  rw [hsize, forRange_eq_map, forRange_eq_map]
  rw [length_flatMap_uniform _ _ n (by intro a _; simp)]
  simp

/-- C22. Footprint sprites: for a facility of size `s` and the footprint cell
in row `r` and column `c` (both below `s`), whose row-major position index
is `k = r * s + c`, the `k`-th tile that `draw` blits for the facility is at
pixel `((f.x + c) * 32, (f.y + r) * 32)` and has sprite index
`spriteShape + k` when the build time is 0 and `spriteShape + k + 2 + s`
otherwise; `s * s` tiles are blitted for the facility. -/
theorem drawShape_sprite_index (f : BaseFacility) (s r c : Nat)
    (hsize : f.rules.size = (s : Int)) (hr : r < s) (hc : c < s) :
    (f.buildTime = 0 →
      (drawShape f)[r * s + c]? = some (DrawOp.sprite .shape
        (f.rules.spriteShape + ((r * s + c : Nat) : Int))
        ((f.x + (c : Int)) * 32) ((f.y + (r : Int)) * 32))) ∧
    (f.buildTime ≠ 0 →
      (drawShape f)[r * s + c]? = some (DrawOp.sprite .shape
        (f.rules.spriteShape + ((r * s + c : Nat) : Int) + 2 + (s : Int))
        ((f.x + (c : Int)) * 32) ((f.y + (r : Int)) * 32))) ∧
    (drawShape f).length = s * s := by
  have hcell := footprintCells_getElem? f s r c hsize hr hc
  have hget : (drawShape f)[r * s + c]? = some (DrawOp.sprite .shape
      (shapeFrame f (r * s + c)) ((f.x + (c : Int)) * GRID_SIZE)
      ((f.y + (r : Int)) * GRID_SIZE)) := by
    unfold drawShape
    rw [List.getElem?_map, List.getElem?_enum, hcell]
    rfl
  refine ⟨?_, ?_, ?_⟩
  · intro hb
    rw [hget]
    unfold shapeFrame GRID_SIZE
    rw [if_pos hb]
  · intro hb
    rw [hget]
    unfold shapeFrame GRID_SIZE
    rw [if_neg hb, hsize]
  · unfold drawShape
    rw [List.length_map, List.enum_length, footprintCells_length f s hsize]

/-- Witness for C22: the operational hangar at `(0, 0)`, whose cell in row 1
and column 0 has index 2 and gets sprite `9 + 2` at pixel `(0, 32)`; and the
lab under construction at `(2, 1)`, whose only cell gets sprite
`3 + 0 + 2 + 1`. -/
theorem drawShape_sprite_index_witness :
    (1 < 2 ∧ 0 < 2) ∧
    (drawShape { rules := hangarRule, x := 0, y := 0, buildTime := 0 })[1 * 2 + 0]?
      = some (DrawOp.sprite .shape 11 0 32) ∧
    (drawShape { rules := labRule, x := 2, y := 1, buildTime := 4 })[0 * 1 + 0]?
      = some (DrawOp.sprite .shape 6 64 32) := by
  have h1 := (drawShape_sprite_index { rules := hangarRule, x := 0, y := 0, buildTime := 0 }
    2 1 0 rfl (by decide) (by decide)).1 rfl
  have h2 := (drawShape_sprite_index { rules := labRule, x := 2, y := 1, buildTime := 4 }
    1 0 0 rfl (by decide) (by decide)).2.1 (by decide)
  exact ⟨⟨by decide, by decide⟩, h1.trans (by decide), h2.trans (by decide)⟩

theorem half_grid : Int.tdiv GRID_SIZE 2 = 16 := by decide

theorem mem_drawConnector_right (BASE_SIZE : Nat) (g : Grid) (f : BaseFacility)
    (px py : Int) :
    DrawOp.sprite .connector 7 px py ∈ drawConnector BASE_SIZE g f ↔
      f.buildTime = 0 ∧ f.x + f.rules.size < (BASE_SIZE : Int) ∧
        ∃ y, (f.y ≤ y ∧ y < f.y + f.rules.size) ∧
          operationalAt g (f.x + f.rules.size) y = true ∧
          px = (f.x + f.rules.size) * 32 - 16 ∧ py = y * 32 := by
  unfold drawConnector
  rw [half_grid]
  by_cases hb : f.buildTime = 0
  · rw [if_pos hb, List.mem_append]
    have hbottom : DrawOp.sprite .connector 7 px py ∉
        (if f.y + f.rules.size < (BASE_SIZE : Int) then
          (forRange f.x (f.x + f.rules.size)).flatMap fun x =>
            if operationalAt g x (f.y + f.rules.size) then
              [DrawOp.sprite .connector 8 (x * GRID_SIZE)
                ((f.y + f.rules.size) * GRID_SIZE - 16)]
            else []
        else []) := by
      split
      · rw [List.mem_flatMap]
        rintro ⟨x, -, hx⟩
        split at hx
        · rw [List.mem_singleton] at hx
          cases hx
        · exact absurd hx (List.not_mem_nil _)
      · exact List.not_mem_nil _
    constructor
    · rintro (h | h)
      · split at h
        · rename_i hguard
          rw [List.mem_flatMap] at h
          obtain ⟨y, hy, hop⟩ := h
          rw [mem_forRange] at hy
          split at hop
          · rename_i hop2
            rw [List.mem_singleton] at hop
            cases hop
            exact ⟨hb, hguard, y, hy, hop2, rfl, rfl⟩
          · exact absurd hop (List.not_mem_nil _)
        · exact absurd h (List.not_mem_nil _)
      · exact absurd h hbottom
    · rintro ⟨-, hguard, y, hy, hop, rfl, rfl⟩
      left
      rw [if_pos hguard, List.mem_flatMap]
      refine ⟨y, (mem_forRange _ _ _).mpr hy, ?_⟩
      rw [if_pos hop]
      exact List.mem_singleton.mpr rfl
  · rw [if_neg hb]
    constructor
    · intro h
      exact absurd h (List.not_mem_nil _)
    · rintro ⟨h, -⟩
      exact absurd h hb

theorem mem_drawConnector_bottom (BASE_SIZE : Nat) (g : Grid) (f : BaseFacility)
    (px py : Int) :
    DrawOp.sprite .connector 8 px py ∈ drawConnector BASE_SIZE g f ↔
      f.buildTime = 0 ∧ f.y + f.rules.size < (BASE_SIZE : Int) ∧
        ∃ x, (f.x ≤ x ∧ x < f.x + f.rules.size) ∧
          operationalAt g x (f.y + f.rules.size) = true ∧
          px = x * 32 ∧ py = (f.y + f.rules.size) * 32 - 16 := by
  unfold drawConnector
  rw [half_grid]
  by_cases hb : f.buildTime = 0
  · rw [if_pos hb, List.mem_append]
    have hright : DrawOp.sprite .connector 8 px py ∉
        (if f.x + f.rules.size < (BASE_SIZE : Int) then
          (forRange f.y (f.y + f.rules.size)).flatMap fun y =>
            if operationalAt g (f.x + f.rules.size) y then
              [DrawOp.sprite .connector 7 ((f.x + f.rules.size) * GRID_SIZE - 16)
                (y * GRID_SIZE)]
            else []
        else []) := by
      split
      · rw [List.mem_flatMap]
        rintro ⟨y, -, hy⟩
        split at hy
        · rw [List.mem_singleton] at hy
          cases hy
        · exact absurd hy (List.not_mem_nil _)
      · exact List.not_mem_nil _
    constructor
    · rintro (h | h)
      · exact absurd h hright
      · split at h
        · rename_i hguard
          rw [List.mem_flatMap] at h
          obtain ⟨x, hx, hop⟩ := h
          rw [mem_forRange] at hx
          split at hop
          · rename_i hop2
            rw [List.mem_singleton] at hop
            cases hop
            exact ⟨hb, hguard, x, hx, hop2, rfl, rfl⟩
          · exact absurd hop (List.not_mem_nil _)
        · exact absurd h (List.not_mem_nil _)
    · rintro ⟨-, hguard, x, hx, hop, rfl, rfl⟩
      right
      rw [if_pos hguard, List.mem_flatMap]
      refine ⟨x, (mem_forRange _ _ _).mpr hx, ?_⟩
      rw [if_pos hop]
      exact List.mem_singleton.mpr rfl
  · rw [if_neg hb]
    constructor
    · intro h
      exact absurd h (List.not_mem_nil _)
    · rintro ⟨h, -⟩
      exact absurd h hb

theorem drawConnector_ops (BASE_SIZE : Nat) (g : Grid) (f : BaseFacility) (op : DrawOp)
    (h : op ∈ drawConnector BASE_SIZE g f) :
    ∃ px py, op = DrawOp.sprite .connector 7 px py ∨ op = DrawOp.sprite .connector 8 px py := by
  unfold drawConnector at h
  split at h
  · rcases List.mem_append.mp h with h1 | h1
    · split at h1
      · rw [List.mem_flatMap] at h1
        obtain ⟨y, -, hop⟩ := h1
        split at hop
        · exact ⟨_, _, Or.inl (List.mem_singleton.mp hop)⟩
        · exact absurd hop (List.not_mem_nil _)
      · exact absurd h1 (List.not_mem_nil _)
    · split at h1
      · rw [List.mem_flatMap] at h1
        obtain ⟨x, -, hop⟩ := h1
        split at hop
        · exact ⟨_, _, Or.inr (List.mem_singleton.mp hop)⟩
        · exact absurd hop (List.not_mem_nil _)
      · exact absurd h1 (List.not_mem_nil _)
  · exact absurd h (List.not_mem_nil _)

theorem setBase_operationalAt (BASE_SIZE : Nat) (v : BaseView) (base : Base)
    (hno : nonOverlapping base.facilities) (x y : Int) (hb : onBoard BASE_SIZE x y) :
    operationalAt (v.setBase BASE_SIZE base).facilities x y = true ↔
      ∃ g ∈ base.facilities, g.covers x y ∧ g.buildTime = 0 := by
  rw [operationalAt_eq_true]
  constructor
  · rintro ⟨g, hg, hz⟩
    have hg2 : fillGrid base.facilities (clearGrid BASE_SIZE v.facilities) x y = some g := hg
    rcases fillGrid_some _ _ _ _ _ hg2 with ⟨hm, hc⟩ | hcl
    · exact ⟨g, hm, hc, hz⟩
    · rw [clearGrid_apply, if_pos hb] at hcl
      cases hcl
  · rintro ⟨g, hm, hc, hz⟩
    exact ⟨g, fillGrid_of_nonOverlapping _ _ g x y hno hm hc, hz⟩

/-- C23. Connectors: for the grid that `setBase` builds from a
non-overlapping facility list on the board, the connector loop of `draw`
blits frame 7 at pixel `(x * 32 - 16, y * 32)` exactly when some listed
facility `f` with build time 0 has `x = f.x + f.size < N`, `y` is a row of its
footprint, and the listed facility covering cell `(x, y)` has build time 0;
it blits frame 8 at `(x * 32, y * 32 - 16)` exactly when `y = f.y + f.size < N`,
`x` is a column of the footprint of `f`, and the facility covering `(x, y)`
has build time 0; and it blits nothing else.  So no connector is drawn when
either facility is under construction. -/
theorem drawConnectors_adjacent_operational (BASE_SIZE : Nat) (v : BaseView) (base : Base)
    (hfit : base.fitsBoard BASE_SIZE) (hno : nonOverlapping base.facilities) :
    (∀ px py, DrawOp.sprite .connector 7 px py ∈
        drawConnectors BASE_SIZE (v.setBase BASE_SIZE base).facilities base.facilities ↔
      ∃ f ∈ base.facilities, ∃ g ∈ base.facilities, f.buildTime = 0 ∧ g.buildTime = 0 ∧
        f.x + f.rules.size < (BASE_SIZE : Int) ∧
        ∃ y, (f.y ≤ y ∧ y < f.y + f.rules.size) ∧ g.covers (f.x + f.rules.size) y ∧
          px = (f.x + f.rules.size) * 32 - 16 ∧ py = y * 32) ∧
    (∀ px py, DrawOp.sprite .connector 8 px py ∈
        drawConnectors BASE_SIZE (v.setBase BASE_SIZE base).facilities base.facilities ↔
      ∃ f ∈ base.facilities, ∃ g ∈ base.facilities, f.buildTime = 0 ∧ g.buildTime = 0 ∧
        f.y + f.rules.size < (BASE_SIZE : Int) ∧
        ∃ x, (f.x ≤ x ∧ x < f.x + f.rules.size) ∧ g.covers x (f.y + f.rules.size) ∧
          px = x * 32 ∧ py = (f.y + f.rules.size) * 32 - 16) ∧
    (∀ op ∈ drawConnectors BASE_SIZE (v.setBase BASE_SIZE base).facilities base.facilities,
      ∃ px py, op = DrawOp.sprite .connector 7 px py ∨
        op = DrawOp.sprite .connector 8 px py) := by
  refine ⟨?_, ?_, ?_⟩
  · intro px py
    unfold drawConnectors
    rw [List.mem_flatMap]
    constructor
    · rintro ⟨f, hf, hop⟩
      obtain ⟨hb, hguard, y, hy, hop2, hpx, hpy⟩ :=
        (mem_drawConnector_right _ _ _ _ _).mp hop
      have hcell : onBoard BASE_SIZE f.x y := hfit f hf f.x y ⟨le_refl _, by omega, hy.1, hy.2⟩
      have hon : onBoard BASE_SIZE (f.x + f.rules.size) y := by
        unfold onBoard at hcell ⊢
        omega
      obtain ⟨g, hg, hc, hz⟩ := (setBase_operationalAt BASE_SIZE v base hno _ _ hon).mp hop2
      exact ⟨f, hf, g, hg, hb, hz, hguard, y, hy, hc, hpx, hpy⟩
    · rintro ⟨f, hf, g, hg, hb, hz, hguard, y, hy, hc, hpx, hpy⟩
      have hcell : onBoard BASE_SIZE f.x y := hfit f hf f.x y ⟨le_refl _, by omega, hy.1, hy.2⟩
      have hon : onBoard BASE_SIZE (f.x + f.rules.size) y := by
        unfold onBoard at hcell ⊢
        omega
      refine ⟨f, hf, (mem_drawConnector_right _ _ _ _ _).mpr ⟨hb, hguard, y, hy, ?_, hpx, hpy⟩⟩
      exact (setBase_operationalAt BASE_SIZE v base hno _ _ hon).mpr ⟨g, hg, hc, hz⟩
  · intro px py
    unfold drawConnectors
    rw [List.mem_flatMap]
    constructor
    · rintro ⟨f, hf, hop⟩
      obtain ⟨hb, hguard, x, hx, hop2, hpx, hpy⟩ :=
        (mem_drawConnector_bottom _ _ _ _ _).mp hop
      have hcell : onBoard BASE_SIZE x f.y := hfit f hf x f.y ⟨hx.1, hx.2, le_refl _, by omega⟩
      have hon : onBoard BASE_SIZE x (f.y + f.rules.size) := by
        unfold onBoard at hcell ⊢
        omega
      obtain ⟨g, hg, hc, hz⟩ := (setBase_operationalAt BASE_SIZE v base hno _ _ hon).mp hop2
      exact ⟨f, hf, g, hg, hb, hz, hguard, x, hx, hc, hpx, hpy⟩
    · rintro ⟨f, hf, g, hg, hb, hz, hguard, x, hx, hc, hpx, hpy⟩
      have hcell : onBoard BASE_SIZE x f.y := hfit f hf x f.y ⟨hx.1, hx.2, le_refl _, by omega⟩
      have hon : onBoard BASE_SIZE x (f.y + f.rules.size) := by
        unfold onBoard at hcell ⊢
        omega
      refine ⟨f, hf, (mem_drawConnector_bottom _ _ _ _ _).mpr ⟨hb, hguard, x, hx, ?_, hpx, hpy⟩⟩
      exact (setBase_operationalAt BASE_SIZE v base hno _ _ hon).mpr ⟨g, hg, hc, hz⟩
  · intro op hop
    unfold drawConnectors at hop
    rw [List.mem_flatMap] at hop
    obtain ⟨f, -, hf⟩ := hop
    exact drawConnector_ops _ _ _ _ hf

theorem nonOverlapping_of_separated (fs : List BaseFacility)
    (h : fs.Pairwise fun f g =>
      f.x + f.rules.size ≤ g.x ∨ g.x + g.rules.size ≤ f.x ∨
        f.y + f.rules.size ≤ g.y ∨ g.y + g.rules.size ≤ f.y) :
    nonOverlapping fs := by
  unfold nonOverlapping
  refine List.Pairwise.imp ?_ h
  intro f g hsep x y hc
  unfold BaseFacility.covers at hc
  omega

theorem fitsBoard_of_bounds (BASE_SIZE : Nat) (base : Base)
    (h : ∀ f ∈ base.facilities, 0 ≤ f.x ∧ 0 ≤ f.y ∧
      f.x + f.rules.size ≤ (BASE_SIZE : Int) ∧ f.y + f.rules.size ≤ (BASE_SIZE : Int)) :
    base.fitsBoard BASE_SIZE := by
  intro f hf x y hc
  have hb := h f hf
  unfold BaseFacility.covers at hc
  unfold onBoard
  omega

/-- Witness for C23: in `hangarBase` the hangar at `(0, 0)` and the lab at
`(2, 0)` are both operational and side by side, which gives the one connector
at `(48, 0)`; the lab under construction at `(2, 1)` gets none. -/
theorem drawConnectors_adjacent_operational_witness :
    hangarBase.fitsBoard 6 ∧ nonOverlapping hangarBase.facilities ∧
    DrawOp.sprite .connector 7 48 0 ∈
      drawConnectors 6 ((freshView 6).setBase 6 hangarBase).facilities hangarBase.facilities ∧
    drawConnectors 6 ((freshView 6).setBase 6 hangarBase).facilities hangarBase.facilities
      = [DrawOp.sprite .connector 7 48 0] := by
  have hfit : hangarBase.fitsBoard 6 := fitsBoard_of_bounds 6 hangarBase (by decide)
  have hno : nonOverlapping hangarBase.facilities :=
    nonOverlapping_of_separated _ (by decide)
  refine ⟨hfit, hno, ?_, by decide⟩
  refine (drawConnectors_adjacent_operational 6 (freshView 6) hangarBase hfit hno).1 48 0
    |>.mpr ⟨{ rules := hangarRule, x := 0, y := 0, buildTime := 0 }, by decide,
      { rules := labRule, x := 2, y := 0, buildTime := 0 }, by decide, rfl, rfl, by decide,
      0, by decide, by decide, by decide, by decide⟩

/-! ### Layers of the blits -/

theorem filter_layer_same (l : List DrawOp) (k : Layer) (h : ∀ op ∈ l, op.layer = k) :
    l.filter (fun op => decide (op.layer = k)) = l := by
  rw [List.filter_eq_self]
  intro op hop
  exact decide_eq_true (h op hop)

theorem filter_layer_other (l : List DrawOp) (k j : Layer) (h : ∀ op ∈ l, op.layer = k)
    (hkj : k ≠ j) : l.filter (fun op => decide (op.layer = j)) = [] := by
  rw [List.filter_eq_nil_iff]
  intro op hop hd
  have h1 : op.layer = j := of_decide_eq_true hd
  exact hkj ((h op hop).symm.trans h1)

theorem drawBackground_layer : ∀ op ∈ drawBackground, op.layer = .background := by
  intro op hop
  unfold drawBackground at hop
  rw [List.mem_flatMap] at hop
  obtain ⟨x, -, hx⟩ := hop
  rw [List.mem_map] at hx
  obtain ⟨y, -, rfl⟩ := hx
  rfl

theorem drawShapes_layer (fs : List BaseFacility) :
    ∀ op ∈ drawShapes fs, op.layer = .shape := by
  intro op hop
  unfold drawShapes at hop
  rw [List.mem_flatMap] at hop
  obtain ⟨f, -, hf⟩ := hop
  unfold drawShape at hf
  rw [List.mem_map] at hf
  obtain ⟨p, -, rfl⟩ := hf
  rfl

theorem drawConnectors_layer (BASE_SIZE : Nat) (g : Grid) (fs : List BaseFacility) :
    ∀ op ∈ drawConnectors BASE_SIZE g fs, op.layer = .connector := by
  intro op hop
  unfold drawConnectors at hop
  rw [List.mem_flatMap] at hop
  obtain ⟨f, -, hf⟩ := hop
  obtain ⟨px, py, rfl | rfl⟩ := drawConnector_ops _ _ _ _ hf <;> rfl

theorem drawIcon_layer (f : BaseFacility) : ∀ op ∈ drawIcon f, op.layer = .icon := by
  intro op hop
  unfold drawIcon at hop
  rw [List.mem_flatMap] at hop
  obtain ⟨p, -, hp⟩ := hop
  split at hp
  · rw [List.mem_singleton.mp hp]
    rfl
  · exact absurd hp (List.not_mem_nil _)

theorem drawCraft_layer (f : BaseFacility) (crafts : List Craft) :
    ∀ op ∈ (drawCraft f crafts).1, op.layer = .craft := by
  intro op hop
  unfold drawCraft at hop
  cases crafts with
  | nil => exact absurd hop (List.not_mem_nil _)
  | cons c rest =>
    simp only at hop
    split at hop
    · rw [List.mem_singleton.mp hop]
      rfl
    · exact absurd hop (List.not_mem_nil _)

theorem drawCountdown_layer (f : BaseFacility) :
    ∀ op ∈ drawCountdown f, op.layer = .countdown := by
  intro op hop
  unfold drawCountdown at hop
  split at hop
  · rw [List.mem_singleton.mp hop]
    rfl
  · exact absurd hop (List.not_mem_nil _)

theorem tdiv_half (a : Int) : Int.tdiv (a * GRID_SIZE) 2 = a * 16 := by
  have h : a * GRID_SIZE = a * 16 * 2 := by
    unfold GRID_SIZE
    omega
  rw [h]
  exact Int.mul_tdiv_cancel _ (by decide)

theorem drawCraft_ready (f : BaseFacility) (c : Craft) (rest : List Craft)
    (h : hangarReady f = true) : drawCraft f (c :: rest) = ([craftIcon f c], rest) := by
  have h2 : f.buildTime = 0 ∧ f.rules.crafts > 0 := of_decide_eq_true h
  unfold drawCraft craftIcon
  simp only [if_pos h2, tdiv_half]
  rfl

theorem drawCraft_not_ready (f : BaseFacility) (crafts : List Craft)
    (h : ¬ hangarReady f = true) : drawCraft f crafts = ([], crafts) := by
  have h2 : ¬ (f.buildTime = 0 ∧ f.rules.crafts > 0) := fun hc => h (decide_eq_true hc)
  unfold drawCraft
  cases crafts with
  | nil => rfl
  | cons c rest => simp only [if_neg h2]

theorem drawOverlays_crafts (fs : List BaseFacility) (crafts : List Craft) :
    (drawOverlays fs crafts).filter (fun op => decide (op.layer = .craft))
      = List.zipWith craftIcon (fs.filter hangarReady) crafts := by
  induction fs generalizing crafts with
  | nil => rfl
  | cons f fs ih =>
    unfold drawOverlays
    rw [List.filter_append, List.filter_append, List.filter_append,
      filter_layer_other _ _ _ (drawIcon_layer f) (by decide),
      filter_layer_same _ _ (drawCraft_layer f crafts),
      filter_layer_other _ _ _ (drawCountdown_layer f) (by decide), ih]
    by_cases hr : hangarReady f = true
    · rw [List.filter_cons_of_pos hr]
      cases crafts with
      | nil => simp [drawCraft]
      | cons c rest =>
        rw [drawCraft_ready f c rest hr]
        rfl
    · rw [List.filter_cons_of_neg hr, drawCraft_not_ready f crafts hr]
      rfl

/-- C24. Docked craft are assigned by position: the craft icons that `draw`
blits are, in order, the icon of the `j`-th craft of the base's craft list
centred on the `j`-th facility of the list that is operational and has hangar
capacity, for as long as both lists last; their number is the smaller of the
number of crafts and the number of such facilities, and the facilities beyond
the end of the craft list get none. -/
theorem draw_crafts_positional (BASE_SIZE : Nat) (g : Grid) (base : Base) :
    (drawBase BASE_SIZE g base).filter (fun op => decide (op.layer = .craft))
      = List.zipWith craftIcon (base.facilities.filter hangarReady) base.crafts ∧
    ((drawBase BASE_SIZE g base).filter (fun op => decide (op.layer = .craft))).length
      = min (base.facilities.filter hangarReady).length base.crafts.length := by
  have h : (drawBase BASE_SIZE g base).filter (fun op => decide (op.layer = .craft))
      = List.zipWith craftIcon (base.facilities.filter hangarReady) base.crafts := by
    unfold drawBase
    rw [List.filter_append, List.filter_append, List.filter_append,
      filter_layer_other _ _ _ drawBackground_layer (by decide),
      filter_layer_other _ _ _ (drawShapes_layer _) (by decide),
      filter_layer_other _ _ _ (drawConnectors_layer _ _ _) (by decide),
      drawOverlays_crafts]
    rfl
  exact ⟨h, by rw [h, List.length_zipWith]⟩

theorem drawIcon_single (f : BaseFacility) (h : f.rules.size = 1) :
    drawIcon f = [facilityIcon f] := by
  have hcells : footprintCells f = [(f.x, f.y)] := by
    unfold footprintCells
    have h1 : f.rules.size = ((1 : Nat) : Int) := h
    rw [h1, forRange_eq_map, forRange_eq_map, show List.range 1 = [0] from rfl]
    simp
  unfold drawIcon facilityIcon
  rw [hcells]
  simp [h, GRID_SIZE]

theorem drawIcon_multi (f : BaseFacility) (h : f.rules.size ≠ 1) : drawIcon f = [] := by
  unfold drawIcon
  simp only [if_neg h]
  induction (footprintCells f).enum with
  | nil => rfl
  | cons p ps ih => rw [List.flatMap_cons, ih]; rfl

theorem tdiv_countdown (a : Int) : Int.tdiv (GRID_SIZE * a - 16) 2 = 16 * a - 8 := by
  have h : GRID_SIZE * a - 16 = (16 * a - 8) * 2 := by
    unfold GRID_SIZE
    omega
  rw [h]
  exact Int.mul_tdiv_cancel _ (by decide)

theorem drawCountdown_building (f : BaseFacility) (h : f.buildTime > 0) :
    drawCountdown f = [countdownText f] := by
  unfold drawCountdown countdownText
  rw [if_pos h, tdiv_countdown]
  rfl

theorem drawCountdown_none (f : BaseFacility) (h : ¬ f.buildTime > 0) :
    drawCountdown f = [] := by
  unfold drawCountdown
  rw [if_neg h]

theorem drawOverlays_icons (fs : List BaseFacility) (crafts : List Craft) :
    (drawOverlays fs crafts).filter (fun op => decide (op.layer = .icon))
      = (fs.filter singleCell).map facilityIcon := by
  induction fs generalizing crafts with
  | nil => rfl
  | cons f fs ih =>
    unfold drawOverlays
    rw [List.filter_append, List.filter_append, List.filter_append,
      filter_layer_same _ _ (drawIcon_layer f),
      filter_layer_other _ _ _ (drawCraft_layer f crafts) (by decide),
      filter_layer_other _ _ _ (drawCountdown_layer f) (by decide), ih]
    by_cases hs : f.rules.size = 1
    · have hd : singleCell f = true := decide_eq_true hs
      rw [List.filter_cons_of_pos hd, drawIcon_single f hs]
      rfl
    · have hd : ¬ singleCell f = true := fun hd => hs (of_decide_eq_true hd)
      rw [List.filter_cons_of_neg hd, drawIcon_multi f hs]
      rfl

theorem drawOverlays_countdowns (fs : List BaseFacility) (crafts : List Craft) :
    (drawOverlays fs crafts).filter (fun op => decide (op.layer = .countdown))
      = (fs.filter countingDown).map countdownText := by
  induction fs generalizing crafts with
  | nil => rfl
  | cons f fs ih =>
    unfold drawOverlays
    rw [List.filter_append, List.filter_append, List.filter_append,
      filter_layer_other _ _ _ (drawIcon_layer f) (by decide),
      filter_layer_other _ _ _ (drawCraft_layer f crafts) (by decide),
      filter_layer_same _ _ (drawCountdown_layer f), ih]
    by_cases hb : f.buildTime > 0
    · have hd : countingDown f = true := decide_eq_true hb
      rw [List.filter_cons_of_pos hd, drawCountdown_building f hb]
      rfl
    · have hd : ¬ countingDown f = true := fun hd => hb (of_decide_eq_true hd)
      rw [List.filter_cons_of_neg hd, drawCountdown_none f hb]
      rfl

/-- C26. Icon and countdown layers of `draw`.  For a facility `f`: the icon
sprite `spriteFacility` is blitted once, at the facility's cell, if the
footprint size is 1, and not at all otherwise; a countdown text showing the
build time in decimal is blitted if the build time is greater than 0, and
not otherwise; and a facility whose build time is not 0 gets no craft icon.
Over the whole of `draw`, the icons blitted are those of the facilities of
size 1, one each in list order, and the countdowns are those of the
facilities with build time greater than 0. -/
theorem draw_icons_and_countdowns (BASE_SIZE : Nat) (g : Grid) (base : Base)
    (f : BaseFacility) (crafts : List Craft) :
    (f.rules.size = 1 → drawIcon f = [facilityIcon f]) ∧
    (f.rules.size ≠ 1 → drawIcon f = []) ∧
    (f.buildTime > 0 → drawCountdown f = [countdownText f]) ∧
    (¬ f.buildTime > 0 → drawCountdown f = []) ∧
    (f.buildTime ≠ 0 → (drawCraft f crafts).1 = []) ∧
    (drawBase BASE_SIZE g base).filter (fun op => decide (op.layer = .icon))
      = (base.facilities.filter singleCell).map facilityIcon ∧
    (drawBase BASE_SIZE g base).filter (fun op => decide (op.layer = .countdown))
      = (base.facilities.filter countingDown).map countdownText := by
  refine ⟨drawIcon_single f, drawIcon_multi f, drawCountdown_building f, drawCountdown_none f,
    ?_, ?_, ?_⟩
  · intro hb
    have hr : ¬ hangarReady f = true := fun h => hb (of_decide_eq_true h).1
    rw [drawCraft_not_ready f crafts hr]
  · unfold drawBase
    rw [List.filter_append, List.filter_append, List.filter_append,
      filter_layer_other _ _ _ drawBackground_layer (by decide),
      filter_layer_other _ _ _ (drawShapes_layer _) (by decide),
      filter_layer_other _ _ _ (drawConnectors_layer _ _ _) (by decide),
      drawOverlays_icons]
    rfl
  · unfold drawBase
    rw [List.filter_append, List.filter_append, List.filter_append,
      filter_layer_other _ _ _ drawBackground_layer (by decide),
      filter_layer_other _ _ _ (drawShapes_layer _) (by decide),
      filter_layer_other _ _ _ (drawConnectors_layer _ _ _) (by decide),
      drawOverlays_countdowns]
    rfl

/-! ### Draw order -/

set_option maxRecDepth 100000 in
/-- C25, counterexample.  In the blits of `draw` for `hangarBase` the craft
icon of the hangar, which is first in the facility list, is blit number 75
(counting from 0) and the icon of the lab that follows it in the list is blit
number 76: a blit of layer 5 comes before a blit of layer 4, so the layers
are not in order. -/
theorem draw_layers_interleaved :
    (drawBase 6 hangarView.facilities hangarBase)[75]? = some (DrawOp.sprite .craft 33 16 16) ∧
    (drawBase 6 hangarView.facilities hangarBase)[76]? = some (DrawOp.sprite .icon 20 64 0) ∧
    ¬ layersInOrder (drawBase 6 hangarView.facilities hangarBase) := by
  refine ⟨rfl, rfl, ?_⟩
  intro h
  unfold layersInOrder drawBase at h
  have h2 := (List.pairwise_append.mp h).2.1
  exact absurd h2 (by decide)

theorem pairwise_pass_of_layer (l : List DrawOp) (n : Nat) (h : ∀ op ∈ l, op.layer.pass = n) :
    l.Pairwise fun a b => a.layer.pass ≤ b.layer.pass := by
  apply List.pairwise_of_forall_mem_list
  intro a ha b hb
  rw [h a ha, h b hb]

theorem drawOverlays_pass (fs : List BaseFacility) (crafts : List Craft) :
    ∀ op ∈ drawOverlays fs crafts, op.layer.pass = 4 := by
  induction fs generalizing crafts with
  | nil =>
    intro op hop
    exact absurd hop (List.not_mem_nil _)
  | cons f fs ih =>
    intro op hop
    unfold drawOverlays at hop
    rcases List.mem_append.mp hop with h1 | h1
    · rcases List.mem_append.mp h1 with h2 | h2
      · rcases List.mem_append.mp h2 with h3 | h3
        · rw [drawIcon_layer f op h3]
          rfl
        · rw [drawCraft_layer f crafts op h3]
          rfl
      · rw [drawCountdown_layer f op h2]
        rfl
    · exact ih _ op h1

theorem overlay_segment_in_order (f : BaseFacility) (crafts : List Craft) :
    layersInOrder (drawIcon f ++ (drawCraft f crafts).1 ++ drawCountdown f) := by
  unfold layersInOrder
  rw [List.pairwise_append, List.pairwise_append]
  refine ⟨⟨?_, ?_, ?_⟩, ?_, ?_⟩
  · apply List.pairwise_of_forall_mem_list
    intro a ha b hb
    rw [drawIcon_layer f a ha, drawIcon_layer f b hb]
  · apply List.pairwise_of_forall_mem_list
    intro a ha b hb
    rw [drawCraft_layer f crafts a ha, drawCraft_layer f crafts b hb]
  · intro a ha b hb
    rw [drawIcon_layer f a ha, drawCraft_layer f crafts b hb]
    decide
  · apply List.pairwise_of_forall_mem_list
    intro a ha b hb
    rw [drawCountdown_layer f a ha, drawCountdown_layer f b hb]
  · intro a ha b hb
    rw [drawCountdown_layer f b hb]
    rcases List.mem_append.mp ha with h1 | h1
    · rw [drawIcon_layer f a h1]
      decide
    · rw [drawCraft_layer f crafts a h1]
      decide

theorem drawOverlays_segments (fs : List BaseFacility) (crafts : List Craft) :
    ∃ segs : List (List DrawOp), drawOverlays fs crafts = segs.flatten ∧
      List.Forall₂ (fun f seg =>
        (∃ cr : List DrawOp, seg = drawIcon f ++ cr ++ drawCountdown f ∧
          ∀ op ∈ cr, op.layer = .craft) ∧ layersInOrder seg) fs segs := by
  induction fs generalizing crafts with
  | nil => exact ⟨[], rfl, List.Forall₂.nil⟩
  | cons f fs ih =>
    obtain ⟨segs, hflat, hall⟩ := ih (drawCraft f crafts).2
    refine ⟨(drawIcon f ++ (drawCraft f crafts).1 ++ drawCountdown f) :: segs, ?_, ?_⟩
    · unfold drawOverlays
      rw [List.flatten_cons, hflat]
    · exact List.Forall₂.cons
        ⟨⟨(drawCraft f crafts).1, rfl, drawCraft_layer f crafts⟩,
          overlay_segment_in_order f crafts⟩ hall

/-- C25, amended.  In the sequence of blits of one call of `draw`, for every
facility list, the background tiles come first, then all footprint tiles,
then all connectors, each of these three layers entirely before the next and
before every icon, craft icon and countdown.  The icons, craft icons and
countdowns follow facility by facility in list order: the sequence after the
connectors is made of one segment per facility, holding that facility's icon
blits, then its craft icon, then its countdown. -/
theorem draw_order (BASE_SIZE : Nat) (g : Grid) (base : Base) :
    (drawBase BASE_SIZE g base).Pairwise (fun a b => a.layer.pass ≤ b.layer.pass) ∧
    (∃ l1 l2 l3 l4 : List DrawOp, drawBase BASE_SIZE g base = l1 ++ l2 ++ l3 ++ l4 ∧
      (∀ op ∈ l1, op.layer = .background) ∧ (∀ op ∈ l2, op.layer = .shape) ∧
      (∀ op ∈ l3, op.layer = .connector) ∧
      ∃ segs : List (List DrawOp), l4 = segs.flatten ∧
        List.Forall₂ (fun f seg =>
          (∃ cr : List DrawOp, seg = drawIcon f ++ cr ++ drawCountdown f ∧
            ∀ op ∈ cr, op.layer = .craft) ∧ layersInOrder seg) base.facilities segs) := by
  constructor
  · unfold drawBase
    have hp1 : ∀ op ∈ drawBackground, op.layer.pass = 1 := by
      intro op hop
      rw [drawBackground_layer op hop]
      rfl
    have hp2 : ∀ op ∈ drawShapes base.facilities, op.layer.pass = 2 := by
      intro op hop
      rw [drawShapes_layer _ op hop]
      rfl
    have hp3 : ∀ op ∈ drawConnectors BASE_SIZE g base.facilities, op.layer.pass = 3 := by
      intro op hop
      rw [drawConnectors_layer _ _ _ op hop]
      rfl
    have hp4 := drawOverlays_pass base.facilities base.crafts
    rw [List.pairwise_append, List.pairwise_append, List.pairwise_append]
    refine ⟨⟨⟨pairwise_pass_of_layer _ 1 hp1, pairwise_pass_of_layer _ 2 hp2, ?_⟩,
      pairwise_pass_of_layer _ 3 hp3, ?_⟩, pairwise_pass_of_layer _ 4 hp4, ?_⟩
    · intro a ha b hb
      rw [hp1 a ha, hp2 b hb]
      decide
    · intro a ha b hb
      rw [hp3 b hb]
      rcases List.mem_append.mp ha with h1 | h1
      · rw [hp1 a h1]
        decide
      · rw [hp2 a h1]
        decide
    · intro a ha b hb
      rw [hp4 b hb]
      rcases List.mem_append.mp ha with h1 | h1
      · rcases List.mem_append.mp h1 with h2 | h2
        · rw [hp1 a h2]
          decide
        · rw [hp2 a h2]
          decide
      · rw [hp3 a h1]
        decide
  · obtain ⟨segs, hflat, hall⟩ := drawOverlays_segments base.facilities base.crafts
    exact ⟨drawBackground, drawShapes base.facilities,
      drawConnectors BASE_SIZE g base.facilities, drawOverlays base.facilities base.crafts,
      rfl, drawBackground_layer, drawShapes_layer _, drawConnectors_layer _ _ _,
      segs, hflat, hall⟩

end OpenXcom
